import Mathlib

/-!
Shallow embedding of the depu Texas Hold'em engine
(src/game_logic/card.py, player.py, game_engine.py, hand_evaluator.py)
with theorems checking the natural-language specification's claims.

Modelling conventions:
* Python ints are `Int` (chips, bets, seat positions); list lengths are `Nat`.
* Python sets are lists managed with membership-checking insert/remove, so that
  membership and cardinality agree with set semantics.
* Python objects mutated in place become functional record updates; an aliased
  object reached through a lookup is written back with `updateFirst`, which
  rewrites exactly the element the Python lookup would have returned.
* `random.shuffle` and `random.choice` become explicit parameters (the shuffled
  deck, the index of the chosen dealer seat).
* Wall-clock state (`last_action_time`, `disconnected_times`, the timer fields
  of `single_player_waiting`) is omitted: inside the engine it never influences
  any branch of the operations modelled here, only the timeout sweep
  `auto_fold_timeout_players`, which is outside the claims.
* Python `sorted` is a stable insertion sort (`sortBy`); `sorted(set(..))` is
  `sortBy` after `distinctVals`; dict key iteration order is first-occurrence
  order (`dictKeys`).
-/

namespace GameLogic

/-- Stable insertion of `a` into `l`, placing `a` before the first element `b`
with `le a b`; helper for `sortBy`. -/
def orderedInsertBy (le : α → α → Bool) (a : α) : List α → List α
  | [] => [a]
  | b :: l => if le a b then a :: b :: l else b :: orderedInsertBy le a l

/-- Stable insertion sort by a boolean relation; models Python's stable
`sorted` (with `le a b` meaning "a may come before b"). -/
def sortBy (le : α → α → Bool) : List α → List α
  | [] => []
  | a :: l => orderedInsertBy le a (sortBy le l)

/-- Distinct elements of a list; models building a Python `set` in contexts
where the set is subsequently sorted, so the order produced here is
immaterial. -/
def distinctVals [DecidableEq α] : List α → List α
  | [] => []
  | a :: l => if a ∈ l then distinctVals l else a :: distinctVals l

/-- Helper for `dictKeys`: drop elements already seen. -/
def dictKeysAux [DecidableEq α] : List α → List α → List α
  | _, [] => []
  | seen, a :: l => if a ∈ seen then dictKeysAux seen l else a :: dictKeysAux (a :: seen) l

/-- Keys of a Python dict built by repeated `d[k] = ...` insertions over a
list, in first-occurrence order (Python dict iteration order). -/
def dictKeys [DecidableEq α] (l : List α) : List α := dictKeysAux [] l

/-- Rewrite the first element satisfying `q` (the object a Python linear
lookup would have returned and then mutated) with `f`. -/
def updateFirst (q : α → Bool) (f : α → α) : List α → List α
  | [] => []
  | x :: xs => if q x then f x :: xs else x :: updateFirst q f xs

/-- Playing card, from src/game_logic/card.py: rank and suit strings,
equality by (rank, suit). -/
structure Card where
  rank : String
  suit : String
deriving DecidableEq, Repr

/-- Numeric value of a card (`Card.value`): the `rank_values` table, with
unknown ranks mapping to 0 (`dict.get` default). -/
def Card.value (c : Card) : Nat :=
  if c.rank = "2" then 2 else if c.rank = "3" then 3 else if c.rank = "4" then 4
  else if c.rank = "5" then 5 else if c.rank = "6" then 6 else if c.rank = "7" then 7
  else if c.rank = "8" then 8 else if c.rank = "9" then 9 else if c.rank = "10" then 10
  else if c.rank = "J" then 11 else if c.rank = "Q" then 12 else if c.rank = "K" then 13
  else if c.rank = "A" then 14 else 0

/-- The 52-card deck in construction order (`Deck.__init__` / `Deck.reset`
before shuffling): for each suit in order, the thirteen ranks in order. -/
def standardDeck : List Card :=
  (["hearts", "diamonds", "clubs", "spades"].map (fun s =>
    (["2", "3", "4", "5", "6", "7", "8", "9", "10", "J", "Q", "K", "A"].map
      (fun r => Card.mk r s)))).flatten

/-- Python `max(cards, key=value, default=None)`: the first card of maximal
value, or `none` on the empty list. -/
def maxByValue : List Card → Option Card
  | [] => none
  | c :: l =>
    match maxByValue l with
    | none => some c
    | some m => if m.value > c.value then some m else some c

/-- Python `max(l, key=k)` for a `Nat`-valued key: first element of maximal
key. -/
def firstMaxByKey (key : α → Nat) : List α → Option α
  | [] => none
  | a :: l =>
    match firstMaxByKey key l with
    | none => some a
    | some m => if key m > key a then some m else some a

/-- Cards of a given rank, in order (`[c for c in cards if c.rank == r]`). -/
def cardsOfRank (cards : List Card) (r : String) : List Card :=
  cards.filter (fun c => c.rank == r)

/-- Occurrence count of a rank (`rank_count[r]`). -/
def countRank (cards : List Card) (r : String) : Nat :=
  (cardsOfRank cards r).length

/-- Ranks present, in first-occurrence order (iteration order of the
`rank_count` dict). -/
def ranksInOrder (cards : List Card) : List String :=
  dictKeys (cards.map Card.rank)

/-- Suits present, in first-occurrence order (iteration order of the `suits`
dict). -/
def suitsInOrder (cards : List Card) : List String :=
  dictKeys (cards.map Card.suit)

/-- Cards of a given suit, in order. -/
def cardsOfSuit (cards : List Card) (s : String) : List Card :=
  cards.filter (fun c => c.suit == s)

/-- Python `max(values-of-rank)`; the generator is nonempty whenever `r`
occurs in `cards`. -/
def maxValueOfRank (cards : List Card) (r : String) : Nat :=
  ((cardsOfRank cards r).map Card.value).foldl max 0

/-- Distinct card values sorted descending:
`sorted(set(card.value for card in cards), reverse=True)`. -/
def sortedDistinctValuesDesc (cards : List Card) : List Nat :=
  sortBy (fun a b : Nat => decide (b ≤ a)) (distinctVals (cards.map Card.value))

/-- The scan `for i in range(len(values) - 4): if values[i] - values[i+4] == 4`
over a descending list, returning the first five-element window found. -/
def straightWindow : List Nat → Option (List Nat)
  | a :: b :: c :: d :: e :: rest =>
    if a - e == 4 then some [a, b, c, d, e]
    else straightWindow (b :: c :: d :: e :: rest)
  | _ => none

/-- The wheel scan in `_check_straight`: a window whose difference is 4 and
whose endpoints are exactly 5 and 1. -/
def wheelSearch : List Nat → Bool
  | a :: b :: c :: d :: e :: rest =>
    (a - e == 4 && a == 5 && e == 1) || wheelSearch (b :: c :: d :: e :: rest)
  | _ => false

/-- Python `max([c for c in cards if c.value == v], key=value)`: all
candidates share the value, so this is the first card with value `v`. -/
def firstCardWithValue (cards : List Card) (v : Nat) : Option Card :=
  cards.find? (fun c => c.value == v)

namespace HandEvaluator

/-- HandEvaluator._check_straight: the high-ace window scan, then the ace-low
wheel scan guarded by `14 in values`. -/
def check_straight (cards : List Card) : Option (List Card) :=
  let values := sortedDistinctValuesDesc cards
  match straightWindow values with
  | some window => some (window.filterMap (firstCardWithValue cards))
  | none =>
    if 14 ∈ values then
      let lowAce := sortBy (fun a b : Nat => decide (b ≤ a))
        (distinctVals (values.map (fun v => if v == 14 then 1 else v)))
      if wheelSearch lowAce then
        some (([5, 4, 3, 2, 14] : List Nat).filterMap (firstCardWithValue cards))
      else none
    else none

/-- HandEvaluator._check_flush: first suit group of size at least 5, top five
cards by value. -/
def check_flush (cards : List Card) : Option (List Card) :=
  (suitsInOrder cards).findSome? (fun s =>
    let sc := cardsOfSuit cards s
    if sc.length ≥ 5 then
      some ((sortBy (fun a b : Card => decide (b.value ≤ a.value)) sc).take 5)
    else none)

/-- HandEvaluator._check_straight_flush: the first suit group of size at
least 5 that contains a straight. -/
def check_straight_flush (cards : List Card) : Option (List Card) :=
  (suitsInOrder cards).findSome? (fun s =>
    let sc := cardsOfSuit cards s
    if sc.length ≥ 5 then check_straight sc else none)

/-- HandEvaluator._check_royal_flush: a straight flush whose values sorted
descending are exactly A-K-Q-J-10. -/
def check_royal_flush (cards : List Card) : Option (List Card) :=
  match check_straight_flush cards with
  | none => none
  | some sf =>
    if sortBy (fun a b : Nat => decide (b ≤ a)) (sf.map Card.value) == [14, 13, 12, 11, 10]
    then some sf else none

/-- HandEvaluator._check_four_of_a_kind. -/
def check_four_of_a_kind (cards : List Card) : Option (List Card) :=
  match (ranksInOrder cards).find? (fun r => countRank cards r ≥ 4) with
  | none => none
  | some r =>
    let four := (cardsOfRank cards r).take 4
    match maxByValue (cards.filter (fun c => c.rank != r)) with
    | some kicker => some ((four ++ [kicker]).take 5)
    | none => some (four.take 5)

/-- HandEvaluator._check_full_house. -/
def check_full_house (cards : List Card) : Option (List Card) :=
  let threeRanks := sortBy (fun a b : String => decide (maxValueOfRank cards b ≤ maxValueOfRank cards a))
    ((ranksInOrder cards).filter (fun r => countRank cards r ≥ 3))
  match threeRanks with
  | [] => none
  | best :: restThree =>
    let pairRanks := (ranksInOrder cards).filter (fun r => r != best && countRank cards r ≥ 2)
    let pairRanks :=
      if pairRanks.isEmpty then
        match restThree with
        | second :: _ => [second]
        | [] => []
      else pairRanks
    match pairRanks with
    | [] => none
    | pr :: _ => some ((cardsOfRank cards best).take 3 ++ (cardsOfRank cards pr).take 2)

/-- HandEvaluator._check_three_of_a_kind. -/
def check_three_of_a_kind (cards : List Card) : Option (List Card) :=
  match (ranksInOrder cards).find? (fun r => countRank cards r ≥ 3) with
  | none => none
  | some r =>
    let three := (cardsOfRank cards r).take 3
    let kickers := (sortBy (fun a b : Card => decide (b.value ≤ a.value))
      (cards.filter (fun c => c.rank != r))).take 2
    some (three ++ kickers)

/-- HandEvaluator._check_two_pair. -/
def check_two_pair (cards : List Card) : Option (List Card) :=
  let pairRanks := (ranksInOrder cards).filter (fun r => countRank cards r ≥ 2)
  if pairRanks.length ≥ 2 then
    match sortBy (fun a b : String => decide (maxValueOfRank cards b ≤ maxValueOfRank cards a)) pairRanks with
    | r1 :: r2 :: _ =>
      match maxByValue (cards.filter (fun c => c.rank != r1 && c.rank != r2)) with
      | some kicker =>
        some ((cardsOfRank cards r1).take 2 ++ (cardsOfRank cards r2).take 2 ++ [kicker])
      | none => none
    | _ => none
  else none

/-- HandEvaluator._check_pair. -/
def check_pair (cards : List Card) : Option (List Card) :=
  let pairRanks := (ranksInOrder cards).filter (fun r => countRank cards r ≥ 2)
  match firstMaxByKey (maxValueOfRank cards) pairRanks with
  | none => none
  | some best =>
    let kickers := (sortBy (fun a b : Card => decide (b.value ≤ a.value))
      (cards.filter (fun c => c.rank != best))).take 3
    some ((cardsOfRank cards best).take 2 ++ kickers)

/-- HandEvaluator._check_high_card. -/
def check_high_card (cards : List Card) : List Card :=
  (sortBy (fun a b : Card => decide (b.value ≤ a.value)) cards).take 5

/-- Result of hand evaluation: the Python result dict. -/
structure HandEval where
  type : String
  strength : Nat
  cards : List Card
  description : String
deriving DecidableEq, Repr

/-- The HAND_RANKS weight table. -/
def handRank (t : String) : Nat :=
  if t = "high_card" then 1 else if t = "pair" then 2 else if t = "two_pair" then 3
  else if t = "three_of_a_kind" then 4 else if t = "straight" then 5
  else if t = "flush" then 6 else if t = "full_house" then 7
  else if t = "four_of_a_kind" then 8 else if t = "straight_flush" then 9
  else if t = "royal_flush" then 10 else 0

/-- HandEvaluator._evaluate_insufficient_cards. -/
def evaluate_insufficient_cards (hole_cards : List Card) : HandEval :=
  match hole_cards with
  | [c1, c2] =>
    if c1.rank == c2.rank then
      { type := "pair", strength := c1.value, cards := hole_cards, description := "口袋对子" }
    else
      let hc := if c2.value > c1.value then c2 else c1
      { type := "high_card", strength := hc.value, cards := [hc], description := "高牌" }
  | _ => { type := "high_card", strength := 0, cards := hole_cards.take 1, description := "高牌" }

/-- HandEvaluator.evaluate_hand: priority cascade from royal flush down to
high card. -/
def evaluate_hand (hole_cards community_cards : List Card) : HandEval :=
  let all_cards := hole_cards ++ community_cards
  if all_cards.length < 5 then evaluate_insufficient_cards hole_cards
  else
    match check_royal_flush all_cards with
    | some cs => { type := "royal_flush", strength := handRank "royal_flush", cards := cs, description := "皇家同花顺" }
    | none =>
    match check_straight_flush all_cards with
    | some cs => { type := "straight_flush", strength := handRank "straight_flush", cards := cs, description := "同花顺" }
    | none =>
    match check_four_of_a_kind all_cards with
    | some cs => { type := "four_of_a_kind", strength := handRank "four_of_a_kind", cards := cs, description := "四条" }
    | none =>
    match check_full_house all_cards with
    | some cs => { type := "full_house", strength := handRank "full_house", cards := cs, description := "葫芦" }
    | none =>
    match check_flush all_cards with
    | some cs => { type := "flush", strength := handRank "flush", cards := cs, description := "同花" }
    | none =>
    match check_straight all_cards with
    | some cs => { type := "straight", strength := handRank "straight", cards := cs, description := "顺子" }
    | none =>
    match check_three_of_a_kind all_cards with
    | some cs => { type := "three_of_a_kind", strength := handRank "three_of_a_kind", cards := cs, description := "三条" }
    | none =>
    match check_two_pair all_cards with
    | some cs => { type := "two_pair", strength := handRank "two_pair", cards := cs, description := "两对" }
    | none =>
    match check_pair all_cards with
    | some cs => { type := "pair", strength := handRank "pair", cards := cs, description := "对子" }
    | none =>
      { type := "high_card", strength := handRank "high_card", cards := check_high_card all_cards, description := "高牌" }

/-- Lexicographic comparison of the two evaluations' card values in
descending order (`zip` stops at the shorter list). -/
def cmpValuesLex : List Nat → List Nat → Int
  | v1 :: t1, v2 :: t2 =>
    if v1 > v2 then 1 else if v1 < v2 then -1 else cmpValuesLex t1 t2
  | _, _ => 0

/-- HandEvaluator._compare_same_hand_type. -/
def compare_same_hand_type (h1 h2 : HandEval) : Int :=
  cmpValuesLex (sortBy (fun a b : Nat => decide (b ≤ a)) (h1.cards.map Card.value))
    (sortBy (fun a b : Nat => decide (b ≤ a)) (h2.cards.map Card.value))

/-- HandEvaluator.compare_hands. -/
def compare_hands (h1 h2 : HandEval) : Int :=
  if h1.strength > h2.strength then 1
  else if h1.strength < h2.strength then -1
  else compare_same_hand_type h1 h2

end HandEvaluator

/-- Per-seat player state, from src/game_logic/player.py (dataclass Player).
The dataclass field defaults are reproduced as structure defaults. -/
structure Player where
  user_id : String
  nickname : String
  chips : Int
  position : Int
  is_active : Bool := true
  is_folded : Bool := false
  current_bet : Int := 0
  hole_cards : List Card := []
  total_bet : Int := 0
  starting_chips : Int := 0
  win : Bool := false
  last_action : String := ""
deriving DecidableEq, Repr

namespace Player

/-- Player.receive_cards. -/
def receive_cards (p : Player) (cards : List Card) : Player :=
  { p with hole_cards := p.hole_cards ++ cards }

/-- Player.fold. -/
def fold (p : Player) : Player :=
  { p with is_folded := true, is_active := false, last_action := "fold" }

/-- Player.bet: clamps to the stack (auto all-in), moves chips into
current_bet and total_bet. The Python method also returns the clamped
amount, which no caller uses. -/
def bet (p : Player) (amount : Int) : Player :=
  let amount := if amount > p.chips then p.chips else amount
  { p with chips := p.chips - amount,
           current_bet := p.current_bet + amount,
           total_bet := p.total_bet + amount }

/-- Player.call: bet the difference between the table amount and the
player's current bet. -/
def call (p : Player) (amount : Int) : Player :=
  ({ p with last_action := "call" }).bet (amount - p.current_bet)

/-- Player.raise_bet. -/
def raise_bet (p : Player) (amount : Int) : Player :=
  ({ p with last_action := "raise" }).bet amount

/-- Player.check. -/
def check (p : Player) : Player :=
  { p with last_action := "check" }

/-- Player.reset_round: clears current_bet, clears the folded flag and
restores is_active (the Python method leaves last_action alone). -/
def reset_round (p : Player) : Player :=
  { p with current_bet := 0, is_folded := false, is_active := true }

/-- Player.reset_game: reset_round plus clearing the per-hand fields and
snapshotting starting_chips. -/
def reset_game (p : Player) : Player :=
  let p := p.reset_round
  { p with hole_cards := [], total_bet := 0, starting_chips := p.chips,
           win := false, last_action := "" }

/-- Player.can_afford. -/
def can_afford (p : Player) (amount : Int) : Bool :=
  p.chips ≥ amount

/-- Player.is_all_in. -/
def is_all_in (p : Player) : Bool :=
  p.chips == 0 && !p.is_folded && p.is_active

end Player

/-- Seat bookkeeping, from src/game_logic/player.py (PlayerManager). -/
structure PlayerManager where
  players : List Player := []
  dealer_position : Int := 0
deriving DecidableEq, Repr

namespace PlayerManager

/-- PlayerManager.get_player: first player with the given user id. -/
def get_player (pm : PlayerManager) (user_id : String) : Option Player :=
  pm.players.find? (fun p => p.user_id == user_id)

/-- PlayerManager.get_player_by_position: first player at the position. -/
def get_player_by_position (pm : PlayerManager) (position : Int) : Option Player :=
  pm.players.find? (fun p => p.position == position)

/-- PlayerManager.get_active_players: active and not folded, in list order. -/
def get_active_players (pm : PlayerManager) : List Player :=
  pm.players.filter (fun p => p.is_active && !p.is_folded)

/-- PlayerManager.get_playing_players: active players not all-in. -/
def get_playing_players (pm : PlayerManager) : List Player :=
  pm.get_active_players.filter (fun p => !p.is_all_in)

/-- Sort a player list by seat position (Python `list.sort(key=position)`,
stable). -/
def sortByPosition (l : List Player) : List Player :=
  sortBy (fun a b : Player => decide (a.position ≤ b.position)) l

/-- PlayerManager.get_next_player: next seat after `current_position` in
position order among playing players, falling back to active players when
everyone playing is all-in; `None` only when no active player exists. -/
def get_next_player (pm : PlayerManager) (current_position : Int) : Option Player :=
  let active := pm.get_playing_players
  let active := if active.isEmpty then pm.get_active_players else active
  if active.isEmpty then none
  else
    let sorted := sortByPosition active
    match sorted.findIdx? (fun p => p.position == current_position) with
    | none => sorted.head?
    | some i => sorted[(i + 1) % sorted.length]?

/-- PlayerManager.move_dealer_button. -/
def move_dealer_button (pm : PlayerManager) : PlayerManager :=
  match sortByPosition pm.get_active_players with
  | [] => pm
  | sorted@(first :: _) =>
    match sorted.findIdx? (fun p => p.position == pm.dealer_position) with
    | none => { pm with dealer_position := first.position }
    | some i =>
      match sorted[(i + 1) % sorted.length]? with
      | some np => { pm with dealer_position := np.position }
      | none => pm

/-- PlayerManager.get_small_blind_position: dealer in a heads-up game,
otherwise the active seat after the dealer. -/
def get_small_blind_position (pm : PlayerManager) : Option Int :=
  match sortByPosition pm.get_active_players with
  | [] => none
  | sorted@(first :: _) =>
    if sorted.length == 2 then some pm.dealer_position
    else
      match sorted.findIdx? (fun p => p.position == pm.dealer_position) with
      | none => some first.position
      | some i => (sorted[(i + 1) % sorted.length]?).map (fun p => p.position)

/-- PlayerManager.get_big_blind_position: the non-dealer in a heads-up game,
otherwise the active seat after the small blind. -/
def get_big_blind_position (pm : PlayerManager) : Option Int :=
  match sortByPosition pm.get_active_players with
  | [] => none
  | sorted@(first :: _) =>
    if sorted.length == 2 then
      match sorted with
      | a :: b :: _ => if a.position == pm.dealer_position then some b.position else some a.position
      | _ => none
    else
      match pm.get_small_blind_position with
      | none => none
      | some sbp =>
        match sorted.findIdx? (fun p => p.position == sbp) with
        | none => some first.position
        | some i => (sorted[(i + 1) % sorted.length]?).map (fun p => p.position)

/-- PlayerManager.reset_game (reset every player). -/
def reset_game (pm : PlayerManager) : PlayerManager :=
  { pm with players := pm.players.map Player.reset_game }

end PlayerManager

/-- Game stage enum (GameStage in game_engine.py). -/
inductive GameStage where
  | preflop
  | flop
  | turn
  | river
  | showdown
  | ended
deriving DecidableEq, Repr

/-- The serialized stage string (`GameStage.value`). -/
def GameStage.value : GameStage → String
  | .preflop => "preflop"
  | .flop => "flop"
  | .turn => "turn"
  | .river => "river"
  | .showdown => "showdown"
  | .ended => "ended"

/-- Result dict of player_action / _process_action; the Python dict carries
an `all_in` key only on the all-in call path, modelled as a default-false
field. -/
structure ActionResult where
  success : Bool
  message : String
  all_in : Bool := false
deriving DecidableEq, Repr

/-- One layer as produced by _build_side_pots (the `pots` return value, whose
`eligible` entries are the player objects themselves). -/
structure SidePotLayer where
  cap : Int
  amount : Int
  eligible : List Player
deriving DecidableEq, Repr

/-- The display form of a side pot stored on `self.side_pots`. -/
structure SidePotEntry where
  cap : Int
  amount : Int
  eligible_count : Nat
deriving DecidableEq, Repr

/-- An entry of `showdown_reveal`. The `voluntary_reveal` entries lack the
`is_spectating` key; the showdown entries written by `_determine_winner`
(the only writer modelled here) always carry it. -/
structure RevealEntry where
  user_id : String
  nickname : String
  position : Int
  hole_cards : List Card
  is_spectating : Bool
deriving DecidableEq, Repr

/-- The `single_player_waiting` dict. Its `start_time` / `remaining_time`
wall-clock fields are omitted: inside the engine only the dict's truthiness
and its `user_id` are consulted. -/
structure SinglePlayerWaiting where
  user_id : String
  confirmed : Bool
deriving DecidableEq, Repr

/-- Insert into a Python set modelled as a duplicate-free list. -/
def insertSet [DecidableEq α] (a : α) (l : List α) : List α :=
  if a ∈ l then l else l ++ [a]

/-- `set.discard` on the list model. -/
def removeSet [DecidableEq α] (a : α) (l : List α) : List α :=
  l.filter (fun x => x ≠ a)

/-- Python truthiness of an `Optional[int]`: `None` and `0` are falsy. The
engine tests blind positions with `if pos:`, so seat number 0 behaves like
a missing position there. -/
def truthyOptInt : Option Int → Bool
  | none => false
  | some v => v != 0

/-- Engine state, from TexasHoldemGame.__init__. `winner` holds a reference
to a player object; it is modelled by the winner's seat position, all
mutations going through `players`. `last_action_time`, `action_timeout`,
`disconnected_times` and `single_player_grace_period` are wall-clock data
used only by the timeout sweep and the serialized countdown, not by any
operation modelled here. -/
structure Game where
  min_bet : Int
  max_players : Nat
  deck : List Card
  player_manager : PlayerManager
  community_cards : List Card
  pot : Int
  side_pots : List SidePotEntry
  current_bet : Int
  current_player_position : Option Int
  stage : GameStage
  winner_position : Option Int
  first_to_act_position : Option Int
  acted_positions : List Int
  last_raise_increment : Int
  last_aggressor_user_id : Option String
  showdown_reveal : List RevealEntry
  connected_players : List String
  disconnected_players : List String
  spectating_players : List String
  single_player_waiting : Option SinglePlayerWaiting
deriving DecidableEq, Repr

/-- TexasHoldemGame.__init__ with the given min_bet and max_players. -/
def initGame (min_bet : Int) (max_players : Nat) : Game :=
  { min_bet := min_bet
    max_players := max_players
    deck := standardDeck
    player_manager := {}
    community_cards := []
    pot := 0
    side_pots := []
    current_bet := 0
    current_player_position := none
    stage := .preflop
    winner_position := none
    first_to_act_position := none
    acted_positions := []
    last_raise_increment := 0
    last_aggressor_user_id := none
    showdown_reveal := []
    connected_players := []
    disconnected_players := []
    spectating_players := []
    single_player_waiting := none }

namespace Game

/-- Replace the player list. -/
def setPlayers (g : Game) (ps : List Player) : Game :=
  { g with player_manager := { g.player_manager with players := ps } }

/-- Write back a mutation of the player object found by a position lookup. -/
def writeBackByPosition (g : Game) (pos : Int) (p1 : Player) : Game :=
  g.setPlayers (updateFirst (fun p => p.position == pos) (fun _ => p1) g.player_manager.players)

/-- Write back a mutation of the player object found by a user-id lookup. -/
def writeBackByUserId (g : Game) (uid : String) (p1 : Player) : Game :=
  g.setPlayers (updateFirst (fun p => p.user_id == uid) (fun _ => p1) g.player_manager.players)

/-- TexasHoldemGame.add_player: reject on a full table or an occupied seat,
otherwise append the player and mark the user connected. -/
def add_player (g : Game) (user_id nickname : String) (chips position : Int) : Bool × Game :=
  if g.player_manager.players.length ≥ g.max_players then (false, g)
  else if g.player_manager.players.any (fun p => p.position == position) then (false, g)
  else
    let player : Player := { user_id := user_id, nickname := nickname, chips := chips, position := position }
    (true, { g with player_manager := { g.player_manager with players := g.player_manager.players ++ [player] },
                    connected_players := insertSet user_id g.connected_players })

/-- TexasHoldemGame.get_player_connection_status. -/
def get_player_connection_status (g : Game) (user_id : String) : String :=
  if g.connected_players.contains user_id then "online"
  else if g.disconnected_players.contains user_id then "offline"
  else "unknown"

/-- TexasHoldemGame.get_online_active_players: active players that are
connected and not spectating. -/
def get_online_active_players (g : Game) : List Player :=
  g.player_manager.get_active_players.filter (fun p =>
    g.connected_players.contains p.user_id && !g.spectating_players.contains p.user_id)

/-- TexasHoldemGame.set_player_connected (the disconnected-times bookkeeping
is wall-clock data, omitted). -/
def set_player_connected (g : Game) (user_id : String) : Game :=
  { g with connected_players := insertSet user_id g.connected_players,
           disconnected_players := removeSet user_id g.disconnected_players }

/-- First block of set_player_disconnected: move the user from the
connected to the disconnected set (the disconnect-timestamp bookkeeping is
wall-clock data, omitted). -/
def mark_disconnected (g : Game) (user_id : String) : Game :=
  { g with connected_players := removeSet user_id g.connected_players,
           disconnected_players := insertSet user_id g.disconnected_players }

/-- Second block of set_player_disconnected: mid-hand, a non-folded player
becomes spectating unless exactly two active players remain (heads-up
waits for the single-player timeout instead). -/
def spectate_if_midhand (g : Game) (user_id : String) : Game :=
  if g.stage ≠ .ended then
    match g.player_manager.get_player user_id with
    | some player =>
      if !player.is_folded then
        if g.player_manager.get_active_players.length == 2 then g
        else { g with spectating_players := insertSet user_id g.spectating_players }
      else g
    | none => g
  else g

/-- Third block of set_player_disconnected: mid-hand, unless the disconnect
leaves exactly one online active player (the timeout sweep handles that),
the non-folded player is made spectating and auto-folded. -/
def auto_fold_disconnected (g : Game) (user_id : String) : Game :=
  if g.stage ≠ .ended && !(g.spectating_players.contains user_id) then
    let online_active_count := (g.player_manager.get_active_players.filter (fun p =>
      g.connected_players.contains p.user_id && !g.spectating_players.contains p.user_id)).length
    if online_active_count == 1 then g
    else
      match g.player_manager.get_player user_id with
      | some player =>
        if !player.is_folded then
          ({ g with spectating_players := insertSet user_id g.spectating_players
           }).writeBackByUserId user_id player.fold
        else g
      | none => g
  else g

/-- TexasHoldemGame.set_player_disconnected, as the composition of its
three blocks. -/
def set_player_disconnected (g : Game) (user_id : String) : Game :=
  ((g.mark_disconnected user_id).spectate_if_midhand user_id).auto_fold_disconnected user_id

/-- Recursive helper for _deal_cards: two cards to each active player in
list order. `Deck.deal` raises on an exhausted deck — unreachable at legal
table sizes — so dealing is modelled by take/drop (Python list slicing). -/
def deal_hole_cards : List Card → List Player → List Player × List Card
  | deck, [] => ([], deck)
  | deck, p :: ps =>
    if p.is_active && !p.is_folded then
      let dealt := deck.take 2
      let (ps1, deck1) := deal_hole_cards (deck.drop 2) ps
      (p.receive_cards dealt :: ps1, deck1)
    else
      let (ps1, deck1) := deal_hole_cards deck ps
      (p :: ps1, deck1)

/-- TexasHoldemGame._deal_cards. -/
def deal_cards (g : Game) : Game :=
  let r := deal_hole_cards g.deck g.player_manager.players
  { g.setPlayers r.1 with deck := r.2 }

/-- TexasHoldemGame._deal_flop: burn one, deal three community cards. -/
def deal_flop (g : Game) : Game :=
  let deck := g.deck.drop 1
  { g with community_cards := g.community_cards ++ deck.take 3, deck := deck.drop 3 }

/-- TexasHoldemGame._deal_turn: burn one, deal one. -/
def deal_turn (g : Game) : Game :=
  let deck := g.deck.drop 1
  { g with community_cards := g.community_cards ++ deck.take 1, deck := deck.drop 1 }

/-- TexasHoldemGame._deal_river: burn one, deal one. -/
def deal_river (g : Game) : Game :=
  let deck := g.deck.drop 1
  { g with community_cards := g.community_cards ++ deck.take 1, deck := deck.drop 1 }

/-- The small-blind block of TexasHoldemGame._post_blinds (the position
argument was computed before either blind is posted). -/
def post_small_blind (g : Game) (small_blind_pos : Option Int) : Game :=
  if truthyOptInt small_blind_pos then
    match small_blind_pos with
    | some sbp =>
      match g.player_manager.get_player_by_position sbp with
      | some sbPlayer =>
        let sb_amount := g.min_bet.fdiv 2
        if sbPlayer.can_afford sb_amount then
          { g.writeBackByPosition sbp { sbPlayer.bet sb_amount with last_action := "sb" } with
            pot := g.pot + sb_amount }
        else
          let actual := sbPlayer.chips
          if actual > 0 then
            { g.writeBackByPosition sbp { sbPlayer.bet actual with last_action := "sb" } with
              pot := g.pot + actual }
          else g
      | none => g
    | none => g
  else g

/-- The big-blind block of TexasHoldemGame._post_blinds. -/
def post_big_blind (g : Game) (big_blind_pos : Option Int) : Game :=
  if truthyOptInt big_blind_pos then
    match big_blind_pos with
    | some bbp =>
      match g.player_manager.get_player_by_position bbp with
      | some bbPlayer =>
        let bb_amount := g.min_bet
        if bbPlayer.can_afford bb_amount then
          { g.writeBackByPosition bbp { bbPlayer.bet bb_amount with last_action := "bb" } with
            pot := g.pot + bb_amount, current_bet := bb_amount, last_raise_increment := bb_amount }
        else
          let actual := bbPlayer.chips
          if actual > 0 then
            let g1 := { g.writeBackByPosition bbp { bbPlayer.bet actual with last_action := "bb" } with
                        pot := g.pot + actual, current_bet := max g.current_bet actual }
            if g1.last_raise_increment == 0 then { g1 with last_raise_increment := g1.min_bet } else g1
          else g
      | none => g
    | none => g
  else g

/-- TexasHoldemGame._post_blinds: post the small and big blinds (short
stacks go all-in); both blind positions are computed up front from the
pre-blind state. Note the Python guards `if small_blind_pos:` and
`if big_blind_pos:` use int truthiness, so a blind at seat position 0 is
skipped. -/
def post_blinds (g : Game) : Game :=
  let small_blind_pos := g.player_manager.get_small_blind_position
  let big_blind_pos := g.player_manager.get_big_blind_position
  (g.post_small_blind small_blind_pos).post_big_blind big_blind_pos

/-- The position computed by _set_initial_player: heads-up preflop the
small blind acts first and postflop the big blind; otherwise preflop the
seat after the big blind and postflop the seat after the dealer (every
branch of the source assigns current_player_position and
first_to_act_position this same value). -/
def initial_to_act (g : Game) : Option Int :=
  let active_players := g.player_manager.get_active_players
  if active_players.isEmpty then none
  else if (active_players.filter (fun p => !p.is_all_in)).isEmpty then none
  else if active_players.length == 2 then
    if g.stage == .preflop then g.player_manager.get_small_blind_position
    else g.player_manager.get_big_blind_position
  else if g.stage == .preflop then
    match g.player_manager.get_big_blind_position with
    | none => none
    | some bb_pos => (g.player_manager.get_next_player bb_pos).map (fun p => p.position)
  else (g.player_manager.get_next_player g.player_manager.dealer_position).map (fun p => p.position)

/-- TexasHoldemGame._set_initial_player. -/
def set_initial_player (g : Game) : Game :=
  { g with current_player_position := initial_to_act g,
           first_to_act_position := initial_to_act g }

/-- TexasHoldemGame._reset_betting_round: clear every player's current bet
and last action, reset the table bet, reseed the raise increment, clear the
acted set and recompute first-to-act. -/
def reset_betting_round (g : Game) : Game :=
  let g := g.setPlayers (g.player_manager.players.map (fun p =>
    { p with current_bet := 0, last_action := "" }))
  let g := { g with current_bet := 0, last_raise_increment := g.min_bet, acted_positions := [] }
  g.set_initial_player

/-- Layer construction loop of _build_side_pots over the ascending distinct
cap levels. A cap with no eligible player is skipped without advancing
`prev` (Python `continue`); a non-positive layer amount is dropped but
advances `prev`. -/
def buildLayers (active_players : List Player) : List Int → Int → List SidePotLayer
  | [], _ => []
  | amount :: rest, prev =>
    let eligible := active_players.filter (fun p => p.total_bet ≥ amount)
    if eligible.isEmpty then buildLayers active_players rest prev
    else
      let layer_amount := (amount - prev) * (eligible.length : Int)
      let tail := buildLayers active_players rest amount
      if layer_amount > 0 then
        { cap := amount, amount := layer_amount, eligible := eligible } :: tail
      else tail

/-- TexasHoldemGame._build_side_pots: layers over the distinct positive
total_bet levels of the non-folded players, also refreshing the
`side_pots` display snapshot. -/
def build_side_pots (g : Game) : List SidePotLayer × Game :=
  let active_players := g.player_manager.players.filter (fun p => !p.is_folded)
  if active_players.isEmpty then ([], { g with side_pots := [] })
  else
    let bet_amounts := sortBy (fun a b : Int => decide (a ≤ b))
      (distinctVals ((active_players.filter (fun p => p.total_bet > 0)).map (fun p => p.total_bet)))
    if bet_amounts.isEmpty then ([], { g with side_pots := [] })
    else
      let pots := buildLayers active_players bet_amounts 0
      (pots, { g with side_pots := pots.map (fun l =>
        { cap := l.cap, amount := l.amount, eligible_count := l.eligible.length }) })

/-- TexasHoldemGame._update_side_pots_snapshot. -/
def update_side_pots_snapshot (g : Game) : Game :=
  (g.build_side_pots).2

/-- TexasHoldemGame._check_instant_win: when exactly one active (not folded)
player remains, award them the whole pot and end the hand. The `pot` field
itself is not cleared. -/
def check_instant_win (g : Game) : Game :=
  match g.player_manager.get_active_players with
  | [winner_player] =>
    let g := g.setPlayers (updateFirst (fun p => p.is_active && !p.is_folded)
      (fun p => { p with chips := p.chips + g.pot, win := true }) g.player_manager.players)
    { g with winner_position := some winner_player.position, stage := .ended }
  | _ => g

/-- TexasHoldemGame._check_single_player_and_wait: arm the single-player
grace state when exactly one online active player remains. -/
def check_single_player_and_wait (g : Game) : Bool × Game :=
  match g.get_online_active_players with
  | [remaining_player] =>
    if g.single_player_waiting.isNone then
      (true, { g with single_player_waiting := some { user_id := remaining_player.user_id, confirmed := false } })
    else (false, g)
  | _ => (false, g)

/-- The single-player bookkeeping block that _should_advance_stage and
_move_to_next_player both open with (the Python code is duplicated
verbatim in the two methods): clear the wait state once two or more online
active players are back, then, mid-hand with at most one online active
player and no wait armed, try to arm it. Returns whether a wait state was
just entered, with the updated state. -/
def single_player_gate (g : Game) : Bool × Game :=
  let online_active_players := g.get_online_active_players
  let g :=
    if g.single_player_waiting.isSome && online_active_players.length ≥ 2 then
      { g with single_player_waiting := none }
    else g
  if online_active_players.length ≤ 1 && g.stage ≠ .ended && g.single_player_waiting.isNone then
    g.check_single_player_and_wait
  else (false, g)

/-- TexasHoldemGame._should_advance_stage: the betting round ends when no
seat still needs to act, or every seat that does has matched the table bet
(or, with no bet, has voluntarily acted). Also maintains the single-player
waiting state. -/
def should_advance_stage (g : Game) : Bool × Game :=
  let entered := g.single_player_gate
  if entered.1 then (false, entered.2)
  else
    let g := entered.2
    let active_players := g.player_manager.get_active_players
    if active_players.isEmpty then (true, g)
    else
      let still_needs_action := active_players.filter (fun p =>
        !p.is_all_in && g.connected_players.contains p.user_id && !g.spectating_players.contains p.user_id)
      if still_needs_action.isEmpty then (true, g)
      else if g.current_bet > 0 then
        (still_needs_action.all (fun p => p.current_bet ≥ g.current_bet), g)
      else
        ((still_needs_action.map (fun p => p.position)).all (fun pos => pos ∈ g.acted_positions), g)

/-- TexasHoldemGame._seat_order_from_dealer_left: the active seats' position
numbers starting at the seat after the dealer. -/
def seat_order_from_dealer_left (g : Game) : List Int :=
  let active_players := PlayerManager.sortByPosition g.player_manager.get_active_players
  if active_players.isEmpty then []
  else
    let start_index :=
      match active_players.findIdx? (fun p => p.position == g.player_manager.dealer_position) with
      | some i => (i + 1) % active_players.length
      | none => 0
    (active_players.rotateLeft start_index).map (fun p => p.position)

/-- The while loop of _move_to_next_player, fuelled by `max_attempts =
len(players)`: advance past offline/spectating seats, auto-disconnecting
offline ones on the way. -/
def move_loop : Nat → Game → Int → Game
  | 0, g, _ => { g with current_player_position := none }
  | fuel + 1, g, current =>
    match g.player_manager.get_next_player current with
    | none => { g with current_player_position := none }
    | some next_player =>
      if g.connected_players.contains next_player.user_id &&
         !g.spectating_players.contains next_player.user_id then
        { g with current_player_position := some next_player.position }
      else
        let g := if !(g.connected_players.contains next_player.user_id) then
                   g.set_player_disconnected next_player.user_id
                 else g
        let g := { g with current_player_position := some next_player.position }
        move_loop fuel g next_player.position

/-- TexasHoldemGame._move_to_next_player. -/
def move_to_next_player (g : Game) : Game :=
  let step := g.single_player_gate
  if step.1 then step.2
  else
    let g := step.2
    match g.current_player_position with
    | none => g
    | some current => move_loop g.player_manager.players.length g current

end Game

/-- The winner-selection loop of _determine_winner: keep the hands that
compare equal to the running best, reset on a strictly stronger hand. -/
def selectWinners : List (Player × HandEvaluator.HandEval) → List (Player × HandEvaluator.HandEval)
  | [] => []
  | h :: t =>
    t.foldl (fun ws x =>
      match ws with
      | [] => [x]
      | w :: _ =>
        let cmp := HandEvaluator.compare_hands x.2 w.2
        if cmp > 0 then [x] else if cmp == 0 then ws ++ [x] else ws) [h]

/-- Python `ordered_positions.index(pos)`; `index` raises when the position
is missing, which cannot happen for winners (always active seats), so a
missing position maps past the end. -/
def orderIndex (ordered_positions : List Int) (pos : Int) : Nat :=
  match ordered_positions.findIdx? (fun q => q == pos) with
  | some i => i
  | none => ordered_positions.length

/-- `sorted(winners, key=lambda w: ordered_positions.index(w.position))`. -/
def sortWinnersByOrder (ordered_positions : List Int)
    (ws : List (Player × HandEvaluator.HandEval)) : List (Player × HandEvaluator.HandEval) :=
  sortBy (fun a b => decide (orderIndex ordered_positions a.1.position ≤ orderIndex ordered_positions b.1.position)) ws

namespace Game

/-- Award chips and the win flag to the seat at `pos`. Python mutates the
player object reached through a winner reference; seat positions are unique
(enforced by add_player), so the write-back goes by position. -/
def awardWin (g : Game) (pos : Int) (amt : Int) : Game :=
  g.setPlayers (updateFirst (fun p => p.position == pos)
    (fun p => { p with chips := p.chips + amt, win := true }) g.player_manager.players)

/-- Add chips (odd-chip distribution) to the seat at `pos`. -/
def addChips (g : Game) (pos : Int) (amt : Int) : Game :=
  g.setPlayers (updateFirst (fun p => p.position == pos)
    (fun p => { p with chips := p.chips + amt }) g.player_manager.players)

/-- `for i in range(rem): ordered_winners[i].chips += 1`. -/
def distributeOdd (g : Game) (ordered : List Int) (rem : Nat) : Game :=
  (ordered.take rem).foldl (fun gg pos => gg.addChips pos 1) g

/-- The per-pot distribution loop of _determine_winner. The accumulated
`Option Int` is `main_pot_winner` (the winner of the last, highest-cap
layer). A layer with an empty eligible list would divide by zero in Python;
it cannot arise from _build_side_pots. -/
def processPots : Game → List SidePotLayer → Option Int → Game × Option Int
  | g, [], mw => (g, mw)
  | g, pot :: rest, mw =>
    match pot.eligible with
    | [ep] =>
      let g := g.awardWin ep.position pot.amount
      let mw := if rest.isEmpty then some ep.position else mw
      processPots g rest mw
    | eps =>
      let evals := eps.map (fun (p : Player) => (p, HandEvaluator.evaluate_hand p.hole_cards g.community_cards))
      let winners_pool := selectWinners evals
      let share := pot.amount.fdiv (winners_pool.length : Int)
      let rem := pot.amount.fmod (winners_pool.length : Int)
      let ordered := sortWinnersByOrder g.seat_order_from_dealer_left winners_pool
      let g := ordered.foldl (fun (gg : Game) w => gg.awardWin w.1.position share) g
      let g := g.distributeOdd (ordered.map (fun w => w.1.position)) rem.toNat
      let mw := if rest.isEmpty then ordered.head?.map (fun w => w.1.position) else mw
      processPots g rest mw

/-- TexasHoldemGame._determine_winner: settle the hand at showdown. Only
connected, non-spectating active players are evaluated; every active
player's hole cards go into showdown_reveal; each side-pot layer is
distributed independently with floor division and odd chips clockwise from
the dealer. The `pot` field is not cleared. -/
def determine_winner (g : Game) : Bool × Game :=
  let active_players := g.player_manager.get_active_players.filter (fun p =>
    g.connected_players.contains p.user_id && !g.spectating_players.contains p.user_id)
  let g := g.setPlayers (g.player_manager.players.map (fun p => { p with win := false }))
  if active_players.isEmpty then (false, { g with stage := .ended })
  else
    match active_players with
    | [winner_player] =>
      let g := g.awardWin winner_player.position g.pot
      (true, { g with winner_position := some winner_player.position, stage := .ended })
    | _ =>
      let all_active_players := g.player_manager.get_active_players
      let g := { g with showdown_reveal := all_active_players.map (fun (p : Player) =>
        ({ user_id := p.user_id, nickname := p.nickname, position := p.position,
           hole_cards := p.hole_cards,
           is_spectating := g.spectating_players.contains p.user_id } : RevealEntry)) }
      let player_hands := active_players.map (fun (p : Player) =>
        (p, HandEvaluator.evaluate_hand p.hole_cards g.community_cards))
      let winners := selectWinners player_hands
      let r := g.build_side_pots
      let pots := r.1
      let g := r.2
      if pots.isEmpty then
        match winners with
        | [w] =>
          let g := g.awardWin w.1.position g.pot
          (true, { g with winner_position := some w.1.position, stage := .ended })
        | ws =>
          let share := g.pot.fdiv (ws.length : Int)
          let rem := g.pot.fmod (ws.length : Int)
          let ordered := sortWinnersByOrder g.seat_order_from_dealer_left ws
          let g := ordered.foldl (fun (gg : Game) w => gg.awardWin w.1.position share) g
          let g := g.distributeOdd (ordered.map (fun w => w.1.position)) rem.toNat
          (true, { g with stage := .ended })
      else
        let r2 := processPots g pots none
        let g :=
          match r2.2 with
          | some pos => { r2.1 with winner_position := some pos }
          | none => r2.1
        (true, { g with stage := .ended })

/-- The `while self.stage != RIVER` run-out loop of next_stage: deal the
remaining streets. The source loops forever from SHOWDOWN or ENDED; that is
unreachable, since next_stage only enters the loop at FLOP, TURN or RIVER. -/
def run_out_to_river (g : Game) : Game :=
  match g.stage with
  | .preflop =>
    let g := { g.deal_flop with stage := .flop }
    let g := { g.deal_turn with stage := .turn }
    { g.deal_river with stage := .river }
  | .flop =>
    let g := { g.deal_turn with stage := .turn }
    { g.deal_river with stage := .river }
  | .turn => { g.deal_river with stage := .river }
  | _ => g

/-- TexasHoldemGame.next_stage: advance one street (running out all
remaining streets when nobody can act any more), settle at the river, and
otherwise start the next betting round. Called at ENDED the source would
loop forever when no player can act; callers never do, and that dead branch
is modelled as a no-op. -/
def next_stage (g : Game) : Bool × Game :=
  let playing_players := g.player_manager.get_active_players.filter (fun p => !p.is_all_in)
  match g.stage with
  | .river =>
    let g := { g with stage := .showdown }
    g.determine_winner
  | .showdown => (true, { g with stage := .ended })
  | .ended =>
    if playing_players.isEmpty then (true, g)
    else (true, g.reset_betting_round)
  | _ =>
    let g :=
      match g.stage with
      | .preflop => { g.deal_flop with stage := .flop }
      | .flop => { g.deal_turn with stage := .turn }
      | _ => { g.deal_river with stage := .river }
    if playing_players.isEmpty then
      let g := g.run_out_to_river
      let g := { g with stage := .showdown }
      g.determine_winner
    else (true, g.reset_betting_round)

/-- TexasHoldemGame._process_action: the fold/check/call/raise dispatch with
all validation; every rejected action returns the state unchanged. -/
def process_action (g : Game) (player : Player) (action : String) (amount : Int) : ActionResult × Game :=
  if action == "fold" then
    let g := g.writeBackByUserId player.user_id player.fold
    let g := g.check_instant_win
    let g := if g.stage == .ended then { g with current_player_position := none } else g
    ({ success := true, message := "弃牌成功" }, g)
  else if action == "check" then
    if player.current_bet < g.current_bet then
      ({ success := false, message := "必须跟注或加注" }, g)
    else
      let p1 := player.check
      let g := g.writeBackByUserId player.user_id p1
      let g := if !p1.is_all_in && !p1.is_folded then
                 { g with acted_positions := insertSet player.position g.acted_positions }
               else g
      let g := g.check_instant_win
      ({ success := true, message := "过牌成功" }, g)
  else if action == "call" then
    let call_amount := g.current_bet - player.current_bet
    if call_amount ≤ 0 then ({ success := false, message := "无需跟注" }, g)
    else if !(player.can_afford call_amount) then
      let actual_amount := player.chips
      let g := g.writeBackByUserId player.user_id (player.bet actual_amount)
      let g := { g with pot := g.pot + actual_amount }
      let g := g.check_instant_win
      ({ success := true, message := "全下成功", all_in := true }, g)
    else
      let p1 := player.call g.current_bet
      let g := g.writeBackByUserId player.user_id p1
      let g := { g with pot := g.pot + call_amount }
      let g := if !p1.is_all_in && !p1.is_folded then
                 { g with acted_positions := insertSet player.position g.acted_positions }
               else g
      let g := g.update_side_pots_snapshot
      let g := g.check_instant_win
      ({ success := true, message := "跟注成功" }, g)
  else if action == "raise" then
    if amount ≤ g.current_bet then
      ({ success := false, message := "加注金额必须大于当前下注" }, g)
    else
      let call_amount := g.current_bet - player.current_bet
      let min_raise_amount := call_amount + g.last_raise_increment
      let min_target_total_bet := player.current_bet + min_raise_amount
      let actual_raise_amount := amount - player.current_bet
      if !(player.can_afford actual_raise_amount) then
        ({ success := false, message := "筹码不足" }, g)
      else
        let is_all_in := actual_raise_amount ≥ player.chips
        if !is_all_in && amount < min_target_total_bet then
          ({ success := false, message := "加注金额不足，最少加注到" ++ toString min_target_total_bet }, g)
        else
          let raise_increment := actual_raise_amount - call_amount
          let g := g.writeBackByUserId player.user_id (player.raise_bet actual_raise_amount)
          let g := { g with pot := g.pot + actual_raise_amount, current_bet := amount }
          let g := if !is_all_in then { g with last_raise_increment := raise_increment } else g
          let g := { g with acted_positions := [player.position],
                            last_aggressor_user_id := some player.user_id }
          let g := g.update_side_pots_snapshot
          let g := g.check_instant_win
          ({ success := true, message := "加注成功"
          }, g)
  else ({ success := false, message := "无效操作" }, g)

/-- TexasHoldemGame.player_action: reject out-of-turn or folded actors, run
the action, then either finish (hand ended), hold (single-player wait),
advance the stage, or pass the turn. The `last_action_time` refresh is
wall-clock data, omitted. -/
def player_action (g : Game) (user_id action : String) (amount : Int) : ActionResult × Game :=
  match g.player_manager.get_player user_id with
  | none => ({ success := false, message := "不是当前玩家" }, g)
  | some player =>
    if g.current_player_position ≠ some player.position then
      ({ success := false, message := "不是当前玩家" }, g)
    else if player.is_folded then
      ({ success := false, message := "玩家已弃牌" }, g)
    else
      let r := g.process_action player action amount
      if r.1.success then
        let g := r.2
        if g.stage == .ended then (r.1, g)
        else
          let adv := g.should_advance_stage
          let g := adv.2
          if g.single_player_waiting.isSome then (r.1, g)
          else if adv.1 then (r.1, (g.next_stage).2)
          else (r.1, g.move_to_next_player)
      else r

/-- TexasHoldemGame.start_game. `random.shuffle` becomes the explicit
`shuffled_deck` parameter and the bootstrap `random.choice` of a dealer seat
becomes an index into the active positions. A failed precondition returns
the state untouched, except for the unreachable empty-positions guard,
which in the source fires only after the reset already happened. -/
def start_game (g : Game) (shuffled_deck : List Card) (dealer_pick : Nat) : Bool × Game :=
  let active_players := g.get_online_active_players
  if active_players.length < 2 then (false, g)
  else if active_players.any (fun p => p.chips < g.min_bet) then (false, g)
  else
    let g := { g with deck := shuffled_deck, community_cards := [], pot := 0, side_pots := [],
                      current_bet := 0, stage := .preflop, winner_position := none,
                      showdown_reveal := [], spectating_players := [] }
    let g := { g with player_manager := g.player_manager.reset_game }
    let active_positions := (PlayerManager.sortByPosition g.player_manager.get_active_players).map (fun p => p.position)
    if active_positions.isEmpty then (false, g)
    else
      let pm := g.player_manager
      let pm := if pm.dealer_position ∈ active_positions then pm
                else { pm with dealer_position := active_positions.getD (dealer_pick % active_positions.length) 0 }
      let pm := pm.move_dealer_button
      let g := { g with player_manager := pm }
      let g := g.deal_cards
      let g := g.post_blinds
      g.set_initial_player
      |> (true, ·)

end Game

/-- One element of the `players` list of a get_game_state snapshot: the
fields of Player.to_dict plus the `connection_status` key the snapshot loop
adds. -/
structure PlayerView where
  user_id : String
  nickname : String
  chips : Int
  position : Int
  is_active : Bool
  is_folded : Bool
  current_bet : Int
  total_bet : Int
  hole_cards : List Card
  is_all_in : Bool
  hand_delta : Int
  win : Bool
  last_action : String
  connection_status : String
deriving DecidableEq, Repr, Inhabited

namespace Game

/-- Player.to_dict plus the connection status: one entry of the snapshot's
player list before hole-card filtering. `hand_delta` reproduces the Python
truthiness of `starting_chips` (0 means "no snapshot"). -/
def player_view (g : Game) (p : Player) : PlayerView :=
  { user_id := p.user_id, nickname := p.nickname, chips := p.chips, position := p.position,
    is_active := p.is_active, is_folded := p.is_folded, current_bet := p.current_bet,
    total_bet := p.total_bet, hole_cards := p.hole_cards, is_all_in := p.is_all_in,
    hand_delta := if p.starting_chips ≠ 0 then p.chips - p.starting_chips else 0,
    win := p.win, last_action := p.last_action,
    connection_status := g.get_player_connection_status p.user_id }

/-- The per-player loop of TexasHoldemGame.get_game_state: with no
requesting user every hand is shown (debug mode); a requesting user sees
their own cards, everyone's cards at SHOWDOWN/ENDED, and empty lists
otherwise. The surrounding snapshot fields (timeout countdown and the rest)
are either wall-clock data or verbatim copies of engine fields. -/
def get_game_state_players (g : Game) (requesting_user_id : Option String) : List PlayerView :=
  g.player_manager.players.map (fun p =>
    let v := g.player_view p
    match requesting_user_id with
    | none => v
    | some ruid =>
      if p.user_id == ruid then v
      else if g.stage == .showdown || g.stage == .ended then v
      else { v with hole_cards := [] })

end Game

/-! Generic lemmas about the list helpers used by the embedding. -/

theorem mem_orderedInsertBy (le : α → α → Bool) (a x : α) :
    ∀ l : List α, x ∈ orderedInsertBy le a l ↔ x = a ∨ x ∈ l := by
  intro l
  induction l with
  | nil => simp [orderedInsertBy]
  | cons b t ih =>
    by_cases hb : le a b = true
    · simp [orderedInsertBy, hb]
    · have hrw : orderedInsertBy le a (b :: t) = b :: orderedInsertBy le a t := by
        simp [orderedInsertBy, hb]
      rw [hrw, List.mem_cons, ih, List.mem_cons]
      tauto

theorem orderedInsertBy_perm (le : α → α → Bool) (a : α) :
    ∀ l : List α, (orderedInsertBy le a l).Perm (a :: l) := by
  intro l
  induction l with
  | nil => simp [orderedInsertBy]
  | cons b t ih =>
    by_cases hb : le a b = true
    · simp [orderedInsertBy, hb]
    · simp only [orderedInsertBy, hb, if_false]
      exact (ih.cons b).trans (List.Perm.swap a b t)

theorem sortBy_perm (le : α → α → Bool) : ∀ l : List α, (sortBy le l).Perm l := by
  intro l
  induction l with
  | nil => simp [sortBy]
  | cons a t ih => exact (orderedInsertBy_perm le a (sortBy le t)).trans (ih.cons a)

theorem mem_sortBy (le : α → α → Bool) (x : α) (l : List α) :
    x ∈ sortBy le l ↔ x ∈ l :=
  (sortBy_perm le l).mem_iff

theorem pairwise_orderedInsertBy (le : α → α → Bool)
    (htrans : ∀ a b c, le a b = true → le b c = true → le a c = true)
    (htot : ∀ a b, le a b = true ∨ le b a = true) (a : α) :
    ∀ l : List α, l.Pairwise (fun x y => le x y = true) →
      (orderedInsertBy le a l).Pairwise (fun x y => le x y = true) := by
  intro l
  induction l with
  | nil => simp [orderedInsertBy]
  | cons b t ih =>
    intro hl
    rw [List.pairwise_cons] at hl
    by_cases hb : le a b = true
    · simp only [orderedInsertBy, hb, if_true]
      refine List.Pairwise.cons ?_ (List.Pairwise.cons hl.1 hl.2)
      intro y hy
      rcases List.mem_cons.mp hy with rfl | hyt
      · exact hb
      · exact htrans a b y hb (hl.1 y hyt)
    · have hrw : orderedInsertBy le a (b :: t) = b :: orderedInsertBy le a t := by
        simp [orderedInsertBy, hb]
      rw [hrw]
      refine List.Pairwise.cons ?_ (ih hl.2)
      intro y hy
      rcases (mem_orderedInsertBy le a y t).mp hy with hya | hyt
      · subst hya
        rcases htot y b with h | h
        · exact absurd h hb
        · exact h
      · exact hl.1 y hyt

theorem pairwise_sortBy (le : α → α → Bool)
    (htrans : ∀ a b c, le a b = true → le b c = true → le a c = true)
    (htot : ∀ a b, le a b = true ∨ le b a = true) :
    ∀ l : List α, (sortBy le l).Pairwise (fun x y => le x y = true) := by
  intro l
  induction l with
  | nil => exact List.Pairwise.nil
  | cons a t ih => exact pairwise_orderedInsertBy le htrans htot a (sortBy le t) ih

theorem mem_distinctVals [DecidableEq α] (x : α) :
    ∀ l : List α, x ∈ distinctVals l ↔ x ∈ l := by
  intro l
  induction l with
  | nil => simp [distinctVals]
  | cons a t ih =>
    by_cases ha : a ∈ t
    · simp only [distinctVals, ha, if_true, ih, List.mem_cons]
      constructor
      · exact Or.inr
      · rintro (rfl | h)
        · exact ha
        · exact h
    · simp [distinctVals, ha, List.mem_cons, ih]

theorem nodup_distinctVals [DecidableEq α] : ∀ l : List α, (distinctVals l).Nodup := by
  intro l
  induction l with
  | nil => exact List.nodup_nil
  | cons a t ih =>
    by_cases ha : a ∈ t
    · simpa [distinctVals, ha] using ih
    · simp only [distinctVals, ha, if_false]
      exact List.Nodup.cons (fun h => ha ((mem_distinctVals a t).mp h)) ih

theorem updateFirst_decomp (q : α → Bool) (f : α → α) :
    ∀ (l : List α) (x : α), l.find? q = some x →
    ∃ l1 l2, l = l1 ++ x :: l2 ∧ updateFirst q f l = l1 ++ f x :: l2 := by
  intro l
  induction l with
  | nil => intro x h; simp [List.find?] at h
  | cons a t ih =>
    intro x h
    by_cases hq : q a = true
    · rw [List.find?_cons_of_pos _ hq, Option.some_inj] at h
      subst h
      exact ⟨[], t, rfl, by simp [updateFirst, hq]⟩
    · rw [List.find?_cons_of_neg _ (by simpa using hq)] at h
      obtain ⟨l1, l2, hl, hu⟩ := ih x h
      exact ⟨a :: l1, l2, by simp [hl], by simp [updateFirst, hq, hu]⟩

theorem map_updateFirst_of_preserve (q : α → Bool) (f : α → α) (h : α → β)
    (hpres : ∀ x, h (f x) = h x) :
    ∀ l : List α, (updateFirst q f l).map h = l.map h := by
  intro l
  induction l with
  | nil => rfl
  | cons a t ih =>
    by_cases hq : q a = true
    · simp [updateFirst, hq, hpres]
    · simp [updateFirst, hq, ih]

theorem find?_of_filter_cons (q : α → Bool) :
    ∀ (l : List α) (x : α) (xs : List α), l.filter q = x :: xs → l.find? q = some x := by
  intro l
  induction l with
  | nil => intro x xs h; simp at h
  | cons a t ih =>
    intro x xs h
    by_cases hq : q a = true
    · rw [List.filter_cons_of_pos hq] at h
      rw [List.find?_cons_of_pos _ hq]
      exact congrArg some (List.head_eq_of_cons_eq h)
    · rw [List.filter_cons_of_neg (by simpa using hq)] at h
      rw [List.find?_cons_of_neg _ (by simpa using hq)]
      exact ih x xs h

theorem sum_map_add_distrib (f g : α → Int) :
    ∀ l : List α, (l.map (fun x => f x + g x)).sum = (l.map f).sum + (l.map g).sum := by
  intro l
  induction l with
  | nil => simp
  | cons a t ih => simp [ih]; ring

theorem sum_map_congr_mem (f g : α → Int) :
    ∀ l : List α, (∀ x ∈ l, f x = g x) → (l.map f).sum = (l.map g).sum := by
  intro l
  induction l with
  | nil => intro _; rfl
  | cons a t ih =>
    intro h
    simp only [List.map_cons, List.sum_cons, h a (List.mem_cons_self a t),
      ih (fun x hx => h x (List.mem_cons_of_mem a hx))]

theorem sum_map_ite_count (q : α → Bool) (k : Int) :
    ∀ l : List α, (l.map (fun x => if q x then k else 0)).sum = ((l.filter q).length : Int) * k := by
  intro l
  induction l with
  | nil => simp
  | cons a t ih =>
    by_cases hq : q a = true
    · simp [hq, ih, List.filter_cons_of_pos hq]
      ring
    · rw [List.filter_cons_of_neg (by simpa using hq)]
      simp only [List.map_cons, List.sum_cons, if_neg hq, zero_add, ih]

theorem string_append_ne_empty (s t : String) (h : s ≠ "") : s ++ t ≠ "" := by
  intro hc
  apply h
  have hd : (s ++ t).data = ("" : String).data := by rw [hc]
  rw [String.data_append] at hd
  have hs : s.data = [] := (List.append_eq_nil.mp hd).1
  cases s with
  | mk l => cases hs; rfl

/-! Observables for the conservation claims. -/

/-- Total chips held by seated players. -/
def sumChips (g : Game) : Int :=
  (g.player_manager.players.map (fun p => p.chips)).sum

/-- Total of the hand-start snapshots taken by reset_game. -/
def sumStartingChips (g : Game) : Int :=
  (g.player_manager.players.map (fun p => p.starting_chips)).sum

/-- The §8 chip-conservation invariant: chips on the table plus the pot
equal the hand-start chip total. -/
def chipsConserved (g : Game) : Prop :=
  sumChips g + g.pot = sumStartingChips g

instance (g : Game) : Decidable (chipsConserved g) := by
  unfold chipsConserved
  infer_instance

/-! Concrete scenario states (played through the engine's own operations). -/

/-- Heads-up table: seats 1 and 2, 1000 chips each, min_bet 10. -/
def headsUpTable : Game :=
  ((((initGame 10 10).add_player "u1" "Alice" 1000 1).2).add_player "u2" "Bob" 1000 2).2

/-- The heads-up table after start_game (dealer and small blind at seat 2). -/
def headsUpDealt : Game := (headsUpTable.start_game standardDeck 0).2

/-- The small blind (seat 2) calls preflop. -/
def headsUpCall : ActionResult × Game := headsUpDealt.player_action "u2" "call" 0

/-- The small blind (seat 2) folds preflop instead, ending the hand. -/
def headsUpFold : ActionResult × Game := headsUpDealt.player_action "u2" "fold" 0

/-- The heads-up game on the flop after the preflop call. -/
def headsUpFlop : Game := headsUpCall.2

/-- The flop state after seat 2's user disconnects (heads-up, so no
auto-fold and no spectating happens). -/
def headsUpFlopOppDisconnected : Game := headsUpFlop.set_player_disconnected "u2"

/-- The sole connected player checks while the disconnected opponent is
still unfolded. -/
def headsUpDisconnectedCheck : ActionResult × Game :=
  headsUpFlopOppDisconnected.player_action "u1" "check" 0

/-- Three-seat table: seats 1, 2 and 3 with 100 chips each, min_bet 10. -/
def threeSeatTable : Game :=
  (((((initGame 10 10).add_player "u1" "A" 100 1).2).add_player "u2" "B" 100 2).2.add_player
    "u3" "C" 100 3).2

/-- Three-seat table after start_game: dealer seat 2, small blind seat 3,
big blind seat 1, dealer acts first. -/
def threeSeatDealt : Game := (threeSeatTable.start_game standardDeck 0).2

/-- Seat 2 raises to 50. -/
def threeSeatRaised : Game := (threeSeatDealt.player_action "u2" "raise" 50).2

/-- The small blind (seat 3) folds, leaving 5 committed chips behind. -/
def threeSeatFolded : Game := (threeSeatRaised.player_action "u3" "fold" 0).2

/-- The big blind (seat 1) calls; the round advances to the flop. -/
def threeSeatCalled : Game := (threeSeatFolded.player_action "u1" "call" 0).2

/-- A seat that folded on an earlier street. -/
def foldedSeat : Player :=
  { user_id := "u9", nickname := "N", chips := 50, position := 4, is_active := false,
    is_folded := true, current_bet := 7, total_bet := 12, last_action := "fold" }

/-! Projection lemmas: operations that never touch the player list. -/

theorem set_initial_player_proj (g : Game) :
    (g.set_initial_player).player_manager.players = g.player_manager.players ∧
    (g.set_initial_player).pot = g.pot ∧ (g.set_initial_player).stage = g.stage :=
  ⟨rfl, rfl, rfl⟩

/-- C5 counterexample: `Player.reset_round` does clear the folded flag (and
restores is_active), and does not reset last_action, contradicting the
claimed frame. -/
theorem reset_round_clears_folded_flag :
    foldedSeat.is_folded = true ∧
    (foldedSeat.reset_round).is_folded = false ∧
    (foldedSeat.reset_round).is_active = true ∧
    (foldedSeat.reset_round).last_action = "fold" := by
  decide

/-- C5 (amended): Player.reset_round clears current_bet, clears the folded
flag and restores is_active, leaving all other fields (including
last_action) unchanged. The engine's between-street reset
(_reset_betting_round) never calls reset_round: it rewrites only each
player's current_bet and last_action, so a fold does persist across streets
at the engine level. -/
theorem between_street_reset_effects :
    (∀ p : Player, p.reset_round =
      { p with current_bet := 0, is_folded := false, is_active := true }) ∧
    (∀ g : Game, (g.reset_betting_round).player_manager.players =
      g.player_manager.players.map (fun p => { p with current_bet := 0, last_action := "" })) := by
  constructor
  · intro p; rfl
  · intro g
    unfold Game.reset_betting_round
    exact (set_initial_player_proj _).1

/-- C9: add_player returns false and leaves the game untouched exactly when
the table is full or the seat is occupied; otherwise it appends the new
player (with the Player-dataclass defaults), marks the user connected and
returns true. -/
theorem add_player_spec (g : Game) (uid nick : String) (chips pos : Int) :
    g.add_player uid nick chips pos =
      if g.player_manager.players.length ≥ g.max_players ∨
         g.player_manager.players.any (fun p => p.position == pos) then (false, g)
      else
        (true,
          { g.setPlayers (g.player_manager.players ++
              [({ user_id := uid, nickname := nick, chips := chips, position := pos } : Player)]) with
            connected_players := insertSet uid g.connected_players }) := by
  unfold Game.add_player Game.setPlayers
  by_cases h1 : g.player_manager.players.length ≥ g.max_players
  · simp [h1]
  · by_cases h2 : g.player_manager.players.any (fun p => p.position == pos)
    · simp [h1, h2]
    · simp [h1, h2]

/-- C6: heads-up blind scenario with min_bet 10 and two 1000-chip stacks:
after start_game the dealer (seat 2) is the small blind with 995 chips and
a 5-chip bet, the big blind (seat 1) has 990 chips and a 10-chip bet, the
table bet and the raise increment are 10 and the small blind acts first;
after the small blind calls, its stack is 990, the stage is FLOP, the table
bet is 0 and the big blind acts first. -/
theorem heads_up_blinds_scenario :
    (headsUpTable.start_game standardDeck 0).1 = true ∧
    headsUpDealt.player_manager.dealer_position = 2 ∧
    headsUpDealt.player_manager.get_small_blind_position = some 2 ∧
    headsUpDealt.player_manager.get_big_blind_position = some 1 ∧
    (headsUpDealt.player_manager.get_player "u2").map Player.chips = some 995 ∧
    (headsUpDealt.player_manager.get_player "u2").map Player.current_bet = some 5 ∧
    (headsUpDealt.player_manager.get_player "u1").map Player.chips = some 990 ∧
    (headsUpDealt.player_manager.get_player "u1").map Player.current_bet = some 10 ∧
    headsUpDealt.current_bet = 10 ∧
    headsUpDealt.last_raise_increment = 10 ∧
    headsUpDealt.current_player_position = some 2 ∧
    headsUpCall.1.success = true ∧
    (headsUpFlop.player_manager.get_player "u2").map Player.chips = some 990 ∧
    headsUpFlop.stage = GameStage.flop ∧
    headsUpFlop.current_bet = 0 ∧
    headsUpFlop.current_player_position = some 1 := by
  decide

/-- C1 counterexample: the fold that ends the heads-up hand pays the pot to
the winner but leaves the pot field at 15, so the sum of chips plus the pot
(side pots are empty) is 2015 while the hand-start total is 2000. -/
theorem chip_conservation_fails_after_settlement :
    headsUpFold.1.success = true ∧
    headsUpFold.2.stage = GameStage.ended ∧
    headsUpFold.2.side_pots = [] ∧
    headsUpFold.2.pot = 15 ∧
    sumChips headsUpFold.2 + headsUpFold.2.pot = 2015 ∧
    sumStartingChips headsUpFold.2 = 2000 ∧
    ¬ chipsConserved headsUpFold.2 := by
  decide

/-- C2 counterexample: after a raise to 50, a fold by the small blind (5
chips already committed) and a call, the committed total is 105 (= pot) but
the side-pot layers sum to 100: the folded seat's 5 chips are in no layer. -/
theorem side_pot_sum_misses_folded_chips :
    (threeSeatCalled.side_pots.map (fun sp => sp.amount)).sum = 100 ∧
    (((threeSeatCalled.build_side_pots).1.map (fun l => l.amount)).sum = 100) ∧
    (threeSeatCalled.player_manager.players.map (fun p => p.total_bet)).sum = 105 ∧
    threeSeatCalled.pot = 105 ∧
    (threeSeatCalled.player_manager.get_player "u3").map Player.is_folded = some true ∧
    (threeSeatCalled.player_manager.get_player "u3").map Player.total_bet = some 5 := by
  decide

/-- C4 counterexample: on the flop of a heads-up hand the opponent
disconnects without folding; exactly one connected, non-spectating,
non-folded seat remains, yet its successful check triggers no instant win:
the stage stays FLOP and no chips move (the engine's test counts active
non-folded seats regardless of connectivity, and there are two). -/
theorem instant_win_ignores_connectivity :
    (headsUpFlopOppDisconnected.get_online_active_players).length = 1 ∧
    (headsUpFlopOppDisconnected.player_manager.get_active_players).length = 2 ∧
    (headsUpFlopOppDisconnected.player_manager.get_player "u2").map Player.is_folded = some false ∧
    headsUpDisconnectedCheck.1.success = true ∧
    headsUpDisconnectedCheck.2.stage = GameStage.flop ∧
    (headsUpDisconnectedCheck.2.player_manager.get_player "u1").map Player.chips =
      (headsUpFlopOppDisconnected.player_manager.get_player "u1").map Player.chips ∧
    headsUpDisconnectedCheck.2.pot = headsUpFlopOppDisconnected.pot := by
  decide

/-- C10: with a requesting user, every other player's hole cards are an
empty list while the stage is neither SHOWDOWN nor ENDED; with no
requesting user, the snapshot carries every player's actual hole cards at
every stage. -/
theorem hole_card_visibility (g : Game) (ruid : String) :
    (g.stage ≠ GameStage.showdown → g.stage ≠ GameStage.ended →
      ∀ v ∈ g.get_game_state_players (some ruid), v.user_id ≠ ruid → v.hole_cards = []) ∧
    (g.get_game_state_players none).map (fun v => v.hole_cards) =
      g.player_manager.players.map (fun p => p.hole_cards) := by
  constructor
  · intro hs he v hv hne
    obtain ⟨p, _, hveq⟩ := List.mem_map.mp hv
    by_cases hu : (p.user_id == ruid) = true
    · exfalso
      apply hne
      rw [← hveq]
      simp only [Game.get_game_state_players, hu, if_true]
      exact eq_of_beq hu
    · have hstage : (g.stage == GameStage.showdown || g.stage == GameStage.ended) = false := by
        cases hstage : g.stage <;> simp_all
      rw [← hveq]
      simp only [Game.get_game_state_players, hu]
      simp only [Bool.or_eq_false_iff] at hstage
      simp [hstage.1, hstage.2]
  · simp [Game.get_game_state_players, Game.player_view, List.map_map]

/-- C10 witness: in the dealt heads-up preflop state, the snapshot
requested by "u1" presents "u2" with an empty hole-card list, while the
requester-less snapshot carries the dealt cards. -/
theorem hole_card_visibility_witness :
    ((headsUpDealt.get_game_state_players (some "u1")).getD 1 default).hole_cards = [] ∧
    (headsUpDealt.get_game_state_players none).map (fun v => v.hole_cards) =
      headsUpDealt.player_manager.players.map (fun p => p.hole_cards) :=
  ⟨(hole_card_visibility headsUpDealt "u1").1 (by decide) (by decide) _ (by decide) (by decide),
   (hole_card_visibility headsUpDealt "u1").2⟩

/-! Lemmas about the raise branch of _process_action (claim C3). -/

theorem raise_success_min (g : Game) (p : Player) (amt : Int)
    (hs : (g.process_action p "raise" amt).1.success = true)
    (hchips : amt - p.current_bet < p.chips) :
    amt - p.current_bet ≥ (g.current_bet - p.current_bet) + g.last_raise_increment := by
  unfold Game.process_action at hs
  rw [if_neg (by decide : ¬((("raise" : String) == "fold") = true)),
      if_neg (by decide : ¬((("raise" : String) == "check") = true)),
      if_neg (by decide : ¬((("raise" : String) == "call") = true)),
      if_pos (by decide : (("raise" : String) == "raise") = true)] at hs
  simp only [] at hs
  split at hs
  · simp at hs
  · split at hs
    · simp at hs
    · split at hs
      · simp at hs
      · next hmin =>
        simp only [Bool.and_eq_true, Bool.not_eq_true', decide_eq_false_iff_not,
          decide_eq_true_eq, not_and, not_lt, ge_iff_le, not_le] at hmin
        by_cases hall : p.chips ≤ amt - p.current_bet
        · omega
        · have := hmin (by omega)
          omega

theorem raise_below_min_rejected (g : Game) (p : Player) (amt : Int)
    (h1 : ¬ amt ≤ g.current_bet)
    (h2 : p.can_afford (amt - p.current_bet) = true)
    (h3 : amt - p.current_bet < p.chips)
    (h4 : amt < p.current_bet + ((g.current_bet - p.current_bet) + g.last_raise_increment)) :
    g.process_action p "raise" amt =
      ({ success := false, message := "加注金额不足，最少加注到" ++
          toString (p.current_bet + ((g.current_bet - p.current_bet) + g.last_raise_increment)) }, g) := by
  unfold Game.process_action
  rw [if_neg (by decide : ¬((("raise" : String) == "fold") = true)),
      if_neg (by decide : ¬((("raise" : String) == "check") = true)),
      if_neg (by decide : ¬((("raise" : String) == "call") = true)),
      if_pos (by decide : (("raise" : String) == "raise") = true)]
  simp only []
  rw [if_neg h1, if_neg (by simp [h2]), if_pos (by simp [not_le.mpr h3, h4])]

/-- C3: an accepted raise that is not an all-in satisfies the minimum-raise
rule: the new table total minus the actor's prior bet is at least the call
amount plus the raise increment as it was before the raise; and a
non-all-in raise below that minimum is rejected with the computed minimum
in the message and no state change. -/
theorem min_raise_rule (g : Game) (uid : String) (amt : Int) (p : Player)
    (hp : g.player_manager.get_player uid = some p) :
    ((g.player_action uid "raise" amt).1.success = true →
      amt - p.current_bet < p.chips →
      amt - p.current_bet ≥ (g.current_bet - p.current_bet) + g.last_raise_increment) ∧
    (g.current_player_position = some p.position →
      p.is_folded = false →
      g.current_bet < amt →
      p.can_afford (amt - p.current_bet) = true →
      amt - p.current_bet < p.chips →
      amt < p.current_bet + ((g.current_bet - p.current_bet) + g.last_raise_increment) →
      g.player_action uid "raise" amt =
        ({ success := false,
           message := "加注金额不足，最少加注到" ++
             toString (p.current_bet + ((g.current_bet - p.current_bet) + g.last_raise_increment)) }, g)) := by
  constructor
  · intro hsucc hchips
    unfold Game.player_action at hsucc
    rw [hp] at hsucc
    simp only [] at hsucc
    by_cases hturn : g.current_player_position = some p.position
    · rw [if_neg (by simp [hturn])] at hsucc
      by_cases hfold : p.is_folded = true
      · rw [if_pos hfold] at hsucc
        simp at hsucc
      · rw [if_neg hfold] at hsucc
        by_cases hps : (g.process_action p "raise" amt).1.success = true
        · exact raise_success_min g p amt hps hchips
        · exfalso
          rw [if_neg hps] at hsucc
          exact hps hsucc
    · rw [if_pos (by simp [hturn])] at hsucc
      simp at hsucc
  · intro hturn hfold hgt haff hchips hbelow
    unfold Game.player_action
    rw [hp]
    simp only []
    rw [if_neg (by simp [hturn]), if_neg (by simp [hfold]),
        raise_below_min_rejected g p amt (not_le.mpr hgt) haff hchips hbelow]
    simp

/-- The player record at seat 2 in the dealt three-seat state. -/
def u2Preflop : Player :=
  { user_id := "u2", nickname := "B", chips := 100, position := 2,
    starting_chips := 100, hole_cards := [⟨"4", "hearts"⟩, ⟨"5", "hearts"⟩] }

set_option maxHeartbeats 2000000 in
/-- C3 witness: in the three-seat preflop state (table bet 10, raise
increment 10), seat 2's accepted raise to 50 satisfies the minimum, and a
raise to 15 is rejected with the computed minimum (20) in the message and
no state change. -/
theorem min_raise_rule_witness :
    (50 - u2Preflop.current_bet ≥
      (threeSeatDealt.current_bet - u2Preflop.current_bet) + threeSeatDealt.last_raise_increment) ∧
    threeSeatDealt.player_action "u2" "raise" 15 =
      ({ success := false,
         message := "加注金额不足，最少加注到" ++
           toString (u2Preflop.current_bet +
             ((threeSeatDealt.current_bet - u2Preflop.current_bet) +
               threeSeatDealt.last_raise_increment)) },
       threeSeatDealt) :=
  ⟨(min_raise_rule threeSeatDealt "u2" 50 u2Preflop (by decide)).1 (by decide) (by decide),
   (min_raise_rule threeSeatDealt "u2" 15 u2Preflop (by decide)).2 (by decide) (by decide)
     (by decide) (by decide) (by decide) (by decide)⟩

/-! Failure paths of _process_action and player_action (claim C7). -/

set_option maxHeartbeats 3200000 in
theorem process_action_fail (g : Game) (p : Player) (act : String) (amt : Int)
    (hf : (g.process_action p act amt).1.success = false) :
    (g.process_action p act amt).2 = g ∧ (g.process_action p act amt).1.message ≠ "" := by
  unfold Game.process_action at hf ⊢
  simp only [] at hf ⊢
  split_ifs at hf ⊢ <;>
    first
    | (simp at hf
       done)
    | (refine ⟨rfl, fun hmsg => ?_⟩
       simp only [] at hmsg
       exact absurd hmsg (by decide))
    | (refine ⟨rfl, fun hmsg => ?_⟩
       simp only [] at hmsg
       exact absurd hmsg (string_append_ne_empty _ _ (by decide)))

/-- C7: every rejected playerAction call (wrong seat, folded actor, illegal
check, raise below the minimum, unaffordable raise, call with nothing owed,
unknown action) returns success = false with a nonempty human-readable
reason and leaves the engine state exactly unchanged; repeating the same
call yields the identical result again. -/
theorem invalid_actions_rejected_without_state_change (g : Game) (uid act : String) (amt : Int)
    (hf : (g.player_action uid act amt).1.success = false) :
    (g.player_action uid act amt).2 = g ∧
    (g.player_action uid act amt).1.message ≠ "" ∧
    (g.player_action uid act amt).2.player_action uid act amt = g.player_action uid act amt := by
  have hmain : (g.player_action uid act amt).2 = g ∧ (g.player_action uid act amt).1.message ≠ "" := by
    unfold Game.player_action at hf ⊢
    cases hp : g.player_manager.get_player uid with
    | none =>
      refine ⟨rfl, fun hmsg => ?_⟩
      simp only [] at hmsg
      exact absurd hmsg (by decide)
    | some p =>
      rw [hp] at hf
      simp only [] at hf ⊢
      by_cases hturn : g.current_player_position ≠ some p.position
      · rw [if_pos hturn] at hf ⊢
        refine ⟨rfl, fun hmsg => ?_⟩
        simp only [] at hmsg
        exact absurd hmsg (by decide)
      · rw [if_neg hturn] at hf ⊢
        by_cases hfold : p.is_folded = true
        · rw [if_pos hfold] at hf ⊢
          refine ⟨rfl, fun hmsg => ?_⟩
          simp only [] at hmsg
          exact absurd hmsg (by decide)
        · rw [if_neg hfold] at hf ⊢
          by_cases hps : (g.process_action p act amt).1.success = true
          · exfalso
            rw [if_pos hps] at hf
            split at hf
            · simp [hps] at hf
            · split at hf
              · simp [hps] at hf
              · split at hf <;> simp [hps] at hf
          · rw [if_neg hps] at hf ⊢
            exact process_action_fail g p act amt hf
  exact ⟨hmain.1, hmain.2, by rw [hmain.1]⟩

/-- C7 witness: a check during the preflop heads-up state while a bet is
owed is rejected with an unchanged state, and repeating it gives the same
result. -/
theorem invalid_actions_rejected_witness :
    (headsUpDealt.player_action "u2" "check" 0).2 = headsUpDealt ∧
    (headsUpDealt.player_action "u2" "check" 0).1.message ≠ "" ∧
    (headsUpDealt.player_action "u2" "check" 0).2.player_action "u2" "check" 0 =
      headsUpDealt.player_action "u2" "check" 0 :=
  invalid_actions_rejected_without_state_change headsUpDealt "u2" "check" 0 (by decide)

/-! Side-pot partition (claim C2). -/

theorem buildLayers_sum (active : List Player) :
    ∀ (caps : List Int) (prev : Int),
      caps.Pairwise (· < ·) →
      (∀ c ∈ caps, prev < c) →
      (∀ p ∈ active, prev < p.total_bet → p.total_bet ∈ caps) →
      (∀ c ∈ caps, ∃ p ∈ active, p.total_bet = c) →
      ((Game.buildLayers active caps prev).map (fun l => l.amount)).sum
        = (active.map (fun p => if prev < p.total_bet then p.total_bet - prev else 0)).sum := by
  intro caps
  induction caps with
  | nil =>
    intro prev _ _ hmem _
    rw [show (Game.buildLayers active [] prev) = [] from rfl]
    rw [sum_map_congr_mem _ (fun _ => (0 : Int)) active
      (fun p hp => by
        by_cases h : prev < p.total_bet
        · exact absurd (hmem p hp h) (List.not_mem_nil _)
        · simp [h])]
    simp
  | cons c rest ih =>
    intro prev hpw hgt hmem hwit
    obtain ⟨p0, hp0active, hp0eq⟩ := hwit c (List.mem_cons_self c rest)
    have hp0elig : p0 ∈ active.filter (fun p => p.total_bet ≥ c) := by
      rw [List.mem_filter]
      exact ⟨hp0active, by simp [hp0eq]⟩
    have hne : ¬ ((active.filter (fun p => p.total_bet ≥ c)).isEmpty = true) := by
      rw [List.isEmpty_iff]
      exact fun h => List.not_mem_nil p0 (h ▸ hp0elig)
    have hcprev : prev < c := hgt c (List.mem_cons_self c rest)
    have hlenpos : 0 < (active.filter (fun p => p.total_bet ≥ c)).length :=
      List.length_pos.mpr (List.ne_nil_of_mem hp0elig)
    have hpos : (c - prev) * ((active.filter (fun p => p.total_bet ≥ c)).length : Int) > 0 :=
      mul_pos (by omega) (by exact_mod_cast hlenpos)
    rw [List.pairwise_cons] at hpw
    have hih := ih c hpw.2 (fun x hx => hpw.1 x hx)
      (fun p hp hlt => by
        rcases List.mem_cons.mp (hmem p hp (lt_trans hcprev hlt)) with heq | hmr
        · omega
        · exact hmr)
      (fun x hx => hwit x (List.mem_cons_of_mem c hx))
    unfold Game.buildLayers
    rw [if_neg hne, if_pos hpos]
    rw [List.map_cons, List.sum_cons, hih]
    rw [show (c - prev) * ((active.filter (fun p => p.total_bet ≥ c)).length : Int)
        = ((active.filter (fun p => p.total_bet ≥ c)).length : Int) * (c - prev) from mul_comm _ _]
    rw [← sum_map_ite_count (fun p => p.total_bet ≥ c) (c - prev) active]
    rw [← sum_map_add_distrib]
    refine sum_map_congr_mem _ _ active (fun p hp => ?_)
    by_cases h1 : c ≤ p.total_bet
    · rw [if_pos (by simpa using h1), if_pos (show prev < p.total_bet by omega)]
      by_cases h2 : c < p.total_bet
      · rw [if_pos h2]; omega
      · rw [if_neg h2]; omega
    · have hnp : ¬ prev < p.total_bet := by
        intro hlt
        rcases List.mem_cons.mp (hmem p hp hlt) with heq | hmr
        · omega
        · exact absurd (hpw.1 _ hmr) (by omega)
      rw [if_neg (by simpa using h1), if_neg (show ¬ c < p.total_bet by omega), if_neg hnp]
      simp

/-- C2 (amended): whenever the side-pot layers are built, the sum of the
layers' amounts equals the chips committed by the non-folded players (every
per-hand total is nonnegative in reachable states); chips committed by
players who folded are in no layer. -/
theorem side_pot_sum_eq_nonfolded_commitment (g : Game)
    (hnn : ∀ p ∈ g.player_manager.players, 0 ≤ p.total_bet) :
    ((g.build_side_pots).1.map (fun l => l.amount)).sum
      = ((g.player_manager.players.filter (fun p => !p.is_folded)).map
          (fun p => p.total_bet)).sum := by
  unfold Game.build_side_pots
  have hsub : ∀ p ∈ g.player_manager.players.filter (fun p => !p.is_folded),
      p ∈ g.player_manager.players := fun p hp => (List.mem_filter.mp hp).1
  by_cases hemp : (g.player_manager.players.filter (fun p => !p.is_folded)).isEmpty = true
  · rw [if_pos hemp]
    rw [List.isEmpty_iff] at hemp
    simp [hemp]
  · rw [if_neg hemp]
    by_cases hbets : (sortBy (fun a b : Int => decide (a ≤ b))
        (distinctVals ((((g.player_manager.players.filter (fun p => !p.is_folded)).filter
          (fun p => p.total_bet > 0))).map (fun p => p.total_bet)))).isEmpty = true
    · rw [if_pos hbets]
      rw [List.isEmpty_iff] at hbets
      have hzero : ∀ p ∈ g.player_manager.players.filter (fun p => !p.is_folded),
          p.total_bet = 0 := by
        intro p hp
        by_cases hposv : 0 < p.total_bet
        · exfalso
          have hmm : p.total_bet ∈ sortBy (fun a b : Int => decide (a ≤ b))
              (distinctVals ((((g.player_manager.players.filter (fun p => !p.is_folded)).filter
                (fun p => p.total_bet > 0))).map (fun p => p.total_bet))) := by
            rw [mem_sortBy, mem_distinctVals]
            exact List.mem_map.mpr ⟨p, List.mem_filter.mpr ⟨hp, by simp [hposv]⟩, rfl⟩
          rw [hbets] at hmm
          exact List.not_mem_nil _ hmm
        · have := hnn p (hsub p hp)
          omega
      rw [sum_map_congr_mem _ (fun _ => (0 : Int)) _ hzero]
      simp
    · rw [if_neg hbets]
      have hperm := sortBy_perm (fun a b : Int => decide (a ≤ b))
        (distinctVals ((((g.player_manager.players.filter (fun p => !p.is_folded)).filter
          (fun p => p.total_bet > 0))).map (fun p => p.total_bet)))
      have hcapmem : ∀ c, c ∈ sortBy (fun a b : Int => decide (a ≤ b))
          (distinctVals ((((g.player_manager.players.filter (fun p => !p.is_folded)).filter
            (fun p => p.total_bet > 0))).map (fun p => p.total_bet))) ↔
          c ∈ (((g.player_manager.players.filter (fun p => !p.is_folded)).filter
            (fun p => p.total_bet > 0))).map (fun p => p.total_bet) := by
        intro c
        rw [mem_sortBy, mem_distinctVals]
      have hpwle := pairwise_sortBy (fun a b : Int => decide (a ≤ b))
        (fun a b c hab hbc => by simp at hab hbc ⊢; omega)
        (fun a b => by rcases le_total a b with h | h
                       · exact Or.inl (by simpa using h)
                       · exact Or.inr (by simpa using h))
        (distinctVals ((((g.player_manager.players.filter (fun p => !p.is_folded)).filter
          (fun p => p.total_bet > 0))).map (fun p => p.total_bet)))
      have hnd : (sortBy (fun a b : Int => decide (a ≤ b))
          (distinctVals ((((g.player_manager.players.filter (fun p => !p.is_folded)).filter
            (fun p => p.total_bet > 0))).map (fun p => p.total_bet)))).Nodup :=
        hperm.symm.nodup (nodup_distinctVals _)
      have hpwlt := (hpwle.and hnd).imp
        (fun {a b} h => lt_of_le_of_ne (by simpa using h.1) h.2)
      rw [buildLayers_sum _ _ 0 hpwlt
        (fun c hc => by
          rcases List.mem_map.mp ((hcapmem c).mp hc) with ⟨p, hpf, hpe⟩
          have := (List.mem_filter.mp hpf).2
          simp at this
          omega)
        (fun p hp hpos => by
          rw [hcapmem]
          exact List.mem_map.mpr ⟨p, List.mem_filter.mpr ⟨hp, by simp [hpos]⟩, rfl⟩)
        (fun c hc => by
          rcases List.mem_map.mp ((hcapmem c).mp hc) with ⟨p, hpf, hpe⟩
          exact ⟨p, (List.mem_filter.mp hpf).1, hpe⟩)]
      refine sum_map_congr_mem _ _ _ (fun p hp => ?_)
      have h0 := hnn p (hsub p hp)
      by_cases hpos : 0 < p.total_bet
      · rw [if_pos hpos]; omega
      · rw [if_neg hpos]; omega

/-- C2 witness: the amended partition identity evaluated at the concrete
three-seat hand with a folded contributor (100 on both sides). -/
theorem side_pot_sum_eq_nonfolded_commitment_witness :
    ((threeSeatCalled.build_side_pots).1.map (fun l => l.amount)).sum
      = ((threeSeatCalled.player_manager.players.filter (fun p => !p.is_folded)).map
          (fun p => p.total_bet)).sum :=
  side_pot_sum_eq_nonfolded_commitment threeSeatCalled (by decide)

/-! Instant win (claim C4). -/

/-- C4 (amended): _check_instant_win fires exactly when a single active
(not-folded) seat remains, regardless of connectivity or spectating: that
seat receives the whole pot and the win flag, the winner is recorded, the
stage becomes ENDED and no hole cards are revealed; with any other number
of active seats (in particular two or more) the state is untouched. -/
theorem instant_win_iff_single_active_seat (g : Game) (w : Player) :
    (g.player_manager.get_active_players = [w] →
      (g.check_instant_win).stage = GameStage.ended ∧
      (g.check_instant_win).winner_position = some w.position ∧
      (g.check_instant_win).showdown_reveal = g.showdown_reveal ∧
      sumChips (g.check_instant_win) = sumChips g + g.pot ∧
      (∃ l1 l2, g.player_manager.players = l1 ++ w :: l2 ∧
        (g.check_instant_win).player_manager.players =
          l1 ++ ({ w with chips := w.chips + g.pot, win := true }) :: l2)) ∧
    (g.player_manager.get_active_players.length ≠ 1 → g.check_instant_win = g) := by
  constructor
  · intro h
    have hfind : g.player_manager.players.find? (fun p => p.is_active && !p.is_folded) = some w :=
      find?_of_filter_cons _ _ w [] h
    obtain ⟨l1, l2, hsplit, hupd⟩ := updateFirst_decomp
      (fun p => p.is_active && !p.is_folded)
      (fun p => { p with chips := p.chips + g.pot, win := true }) _ w hfind
    have hciw : g.check_instant_win =
        { g.setPlayers (updateFirst (fun p => p.is_active && !p.is_folded)
            (fun p => { p with chips := p.chips + g.pot, win := true }) g.player_manager.players)
          with winner_position := some w.position, stage := GameStage.ended } := by
      unfold Game.check_instant_win
      rw [h]
    refine ⟨by rw [hciw], by rw [hciw], by rw [hciw]; rfl, ?_, l1, l2, hsplit, ?_⟩
    · rw [hciw]
      unfold sumChips Game.setPlayers
      simp only []
      rw [hupd, hsplit]
      simp [List.sum_append]
      ring
    · rw [hciw]
      unfold Game.setPlayers
      simp only []
      exact hupd
  · intro hlen
    unfold Game.check_instant_win
    cases hact : g.player_manager.get_active_players with
    | nil => rfl
    | cons a t =>
      cases t with
      | nil => exact absurd (by rw [hact]; rfl) hlen
      | cons b t2 => rfl

/-- A seat that is still active while its only opponent has folded. -/
def soloWinner : Player :=
  { user_id := "w", nickname := "W", chips := 70, position := 6, starting_chips := 100 }

/-- The folded opponent. -/
def soloFolded : Player :=
  { user_id := "f", nickname := "F", chips := 90, position := 5, is_active := false,
    is_folded := true, total_bet := 10, last_action := "fold" }

/-- The seat bookkeeping of the single-active-seat state. -/
def soloPM : PlayerManager :=
  { players := [soloFolded, soloWinner], dealer_position := 5 }

/-- A mid-hand state with a 40-chip pot and a single active seat. -/
def soloActiveGame : Game :=
  { (initGame 10 10) with pot := 40, stage := GameStage.flop, player_manager := soloPM }

/-- C4 witness: the single-active-seat state collects the pot and ends, and
the two-active-seat heads-up state is untouched by _check_instant_win. -/
theorem instant_win_iff_single_active_seat_witness :
    ((soloActiveGame.check_instant_win).stage = GameStage.ended ∧
      (soloActiveGame.check_instant_win).winner_position = some soloWinner.position ∧
      (soloActiveGame.check_instant_win).showdown_reveal = soloActiveGame.showdown_reveal ∧
      sumChips (soloActiveGame.check_instant_win) = sumChips soloActiveGame + soloActiveGame.pot ∧
      (∃ l1 l2, soloActiveGame.player_manager.players = l1 ++ soloWinner :: l2 ∧
        (soloActiveGame.check_instant_win).player_manager.players =
          l1 ++ ({ soloWinner with chips := soloWinner.chips + soloActiveGame.pot, win := true }) :: l2)) ∧
    headsUpDealt.check_instant_win = headsUpDealt :=
  ⟨(instant_win_iff_single_active_seat soloActiveGame soloWinner).1 (by decide),
   (instant_win_iff_single_active_seat headsUpDealt soloWinner).2 (by decide)⟩

/-! The ace-low wheel straight (claim C8). -/

theorem wheelSearch_cons (a : Nat) (l : List Nat) (h : wheelSearch l = true) :
    wheelSearch (a :: l) = true := by
  cases l with
  | nil => exact absurd (show false = true from h) (by decide)
  | cons b t =>
    cases t with
    | nil => exact absurd (show false = true from h) (by decide)
    | cons c t2 =>
      cases t2 with
      | nil => exact absurd (show false = true from h) (by decide)
      | cons d t3 =>
        cases t3 with
        | nil => exact absurd (show false = true from h) (by decide)
        | cons e t4 =>
          rw [show wheelSearch (a :: b :: c :: d :: e :: t4)
              = ((a - e == 4 && a == 5 && e == 1) || wheelSearch (b :: c :: d :: e :: t4)) from rfl,
            h, Bool.or_true]

theorem wheelSearch_of_descending (l : List Nat) (hpw : l.Pairwise (· > ·))
    (h5 : 5 ∈ l) (h4 : 4 ∈ l) (h3 : 3 ∈ l) (h2 : 2 ∈ l) (h1 : 1 ∈ l) :
    wheelSearch l = true := by
  induction l with
  | nil => cases h5
  | cons a t ih =>
    rw [List.pairwise_cons] at hpw
    by_cases ha : a = 5
    · subst ha
      have h4t : (4 : Nat) ∈ t := by
        rcases List.mem_cons.mp h4 with h | h
        · omega
        · exact h
      obtain ⟨b, t1, rfl⟩ : ∃ b t1, t = b :: t1 := by
        cases t with
        | nil => cases h4t
        | cons b t1 => exact ⟨b, t1, rfl⟩
      have hpw1 := List.pairwise_cons.mp hpw.2
      have hb : b = 4 := by
        rcases List.mem_cons.mp h4t with h | h
        · omega
        · have hgt := hpw1.1 4 h
          have h5b := hpw.1 b (List.mem_cons_self b t1)
          omega
      subst hb
      have h3t : (3 : Nat) ∈ t1 := by
        rcases List.mem_cons.mp h3 with h | h
        · omega
        · rcases List.mem_cons.mp h with h | h
          · omega
          · exact h
      obtain ⟨c, t2, rfl⟩ : ∃ c t2, t1 = c :: t2 := by
        cases t1 with
        | nil => cases h3t
        | cons c t2 => exact ⟨c, t2, rfl⟩
      have hpw2 := List.pairwise_cons.mp hpw1.2
      have hc : c = 3 := by
        rcases List.mem_cons.mp h3t with h | h
        · omega
        · have hgt := hpw2.1 3 h
          have h4c := hpw1.1 c (List.mem_cons_self c t2)
          omega
      subst hc
      have h2t : (2 : Nat) ∈ t2 := by
        rcases List.mem_cons.mp h2 with h | h
        · omega
        · rcases List.mem_cons.mp h with h | h
          · omega
          · rcases List.mem_cons.mp h with h | h
            · omega
            · exact h
      obtain ⟨d, t3, rfl⟩ : ∃ d t3, t2 = d :: t3 := by
        cases t2 with
        | nil => cases h2t
        | cons d t3 => exact ⟨d, t3, rfl⟩
      have hpw3 := List.pairwise_cons.mp hpw2.2
      have hd : d = 2 := by
        rcases List.mem_cons.mp h2t with h | h
        · omega
        · have hgt := hpw3.1 2 h
          have h3d := hpw2.1 d (List.mem_cons_self d t3)
          omega
      subst hd
      have h1t : (1 : Nat) ∈ t3 := by
        rcases List.mem_cons.mp h1 with h | h
        · omega
        · rcases List.mem_cons.mp h with h | h
          · omega
          · rcases List.mem_cons.mp h with h | h
            · omega
            · rcases List.mem_cons.mp h with h | h
              · omega
              · exact h
      obtain ⟨e, t4, rfl⟩ : ∃ e t4, t3 = e :: t4 := by
        cases t3 with
        | nil => cases h1t
        | cons e t4 => exact ⟨e, t4, rfl⟩
      have hpw4 := List.pairwise_cons.mp hpw3.2
      have he : e = 1 := by
        rcases List.mem_cons.mp h1t with h | h
        · omega
        · have hgt := hpw4.1 1 h
          have h2e := hpw3.1 e (List.mem_cons_self e t4)
          omega
      subst he
      rw [show wheelSearch (5 :: 4 :: 3 :: 2 :: 1 :: t4)
          = (((5 : Nat) - 1 == 4 && (5 : Nat) == 5 && (1 : Nat) == 1)
              || wheelSearch (4 :: 3 :: 2 :: 1 :: t4)) from rfl]
      rw [show ((5 : Nat) - 1 == 4 && (5 : Nat) == 5 && (1 : Nat) == 1) = true from rfl]
      rw [Bool.true_or]
    · have hstep : ∀ x : Nat, x ≤ 5 → x ∈ a :: t → x ∈ t := by
        intro x hx hmem
        rcases List.mem_cons.mp hmem with h | h
        · exfalso
          have h5t : (5 : Nat) ∈ t := by
            rcases List.mem_cons.mp h5 with h5a | h5t
            · exact absurd h5a.symm ha
            · exact h5t
          have := hpw.1 5 h5t
          omega
        · exact h
      exact wheelSearch_cons a t (ih hpw.2
        (hstep 5 (by omega) h5) (hstep 4 (by omega) h4) (hstep 3 (by omega) h3)
        (hstep 2 (by omega) h2) (hstep 1 (by omega) h1))

theorem mem_sortedDistinctValuesDesc (cards : List Card) (v : Nat) :
    v ∈ sortedDistinctValuesDesc cards ↔ v ∈ cards.map Card.value := by
  unfold sortedDistinctValuesDesc
  rw [mem_sortBy, mem_distinctVals]

theorem pairwise_gt_sortedNatDesc (l : List Nat) (hnd : l.Nodup) :
    (sortBy (fun a b : Nat => decide (b ≤ a)) l).Pairwise (· > ·) := by
  have hpw := pairwise_sortBy (fun a b : Nat => decide (b ≤ a))
    (fun a b c hab hbc => by simp at hab hbc ⊢; omega)
    (fun a b => by rcases le_total a b with h | h
                   · exact Or.inr (by simpa using h)
                   · exact Or.inl (by simpa using h)) l
  have hnd2 : (sortBy (fun a b : Nat => decide (b ≤ a)) l).Nodup :=
    (sortBy_perm _ l).symm.nodup hnd
  exact (hpw.and hnd2).imp (fun {a b} h => by
    have h1 : b ≤ a := by simpa using h.1
    have h2 : a ≠ b := h.2
    omega)

theorem check_straight_wheel (cards : List Card)
    (hns : straightWindow (sortedDistinctValuesDesc cards) = none)
    (hA : 14 ∈ cards.map Card.value) (hv2 : 2 ∈ cards.map Card.value)
    (hv3 : 3 ∈ cards.map Card.value) (hv4 : 4 ∈ cards.map Card.value)
    (hv5 : 5 ∈ cards.map Card.value) :
    HandEvaluator.check_straight cards =
      some (([5, 4, 3, 2, 14] : List Nat).filterMap (firstCardWithValue cards)) := by
  have hmem14 : 14 ∈ sortedDistinctValuesDesc cards :=
    (mem_sortedDistinctValuesDesc cards 14).mpr hA
  have hlowmem : ∀ v : Nat, v ∈ (sortedDistinctValuesDesc cards).map
      (fun v => if v == 14 then 1 else v) →
      v ∈ distinctVals ((sortedDistinctValuesDesc cards).map (fun v => if v == 14 then 1 else v)) :=
    fun v h => (mem_distinctVals v _).mpr h
  have hin : ∀ v : Nat, v ≠ 14 → v ∈ cards.map Card.value →
      v ∈ sortBy (fun a b : Nat => decide (b ≤ a))
        (distinctVals ((sortedDistinctValuesDesc cards).map (fun v => if v == 14 then 1 else v))) := by
    intro v hne hv
    rw [mem_sortBy, mem_distinctVals]
    refine List.mem_map.mpr ⟨v, (mem_sortedDistinctValuesDesc cards v).mpr hv, ?_⟩
    simp [hne]
  have hone : (1 : Nat) ∈ sortBy (fun a b : Nat => decide (b ≤ a))
      (distinctVals ((sortedDistinctValuesDesc cards).map (fun v => if v == 14 then 1 else v))) := by
    rw [mem_sortBy, mem_distinctVals]
    exact List.mem_map.mpr ⟨14, hmem14, by simp⟩
  have hws : wheelSearch (sortBy (fun a b : Nat => decide (b ≤ a))
      (distinctVals ((sortedDistinctValuesDesc cards).map (fun v => if v == 14 then 1 else v)))) = true :=
    wheelSearch_of_descending _
      (pairwise_gt_sortedNatDesc _ (nodup_distinctVals _))
      (hin 5 (by omega) hv5) (hin 4 (by omega) hv4) (hin 3 (by omega) hv3)
      (hin 2 (by omega) hv2) hone
  unfold HandEvaluator.check_straight
  simp only []
  rw [hns]
  simp only []
  rw [if_pos hmem14, if_pos hws]

/-- C8: an input of hole plus community cards (at least five in total) that
contains the ranks A, 2, 3, 4, 5, no straight under the ace-high ordering,
and none of the categories above straight (royal flush, straight flush,
four of a kind, full house, flush) evaluates to the category "straight":
the wheel is recognized with the ace counted low. -/
theorem wheel_recognized_as_straight (hole community : List Card)
    (hlen : 5 ≤ (hole ++ community).length)
    (hrA : "A" ∈ (hole ++ community).map Card.rank)
    (hr2 : "2" ∈ (hole ++ community).map Card.rank)
    (hr3 : "3" ∈ (hole ++ community).map Card.rank)
    (hr4 : "4" ∈ (hole ++ community).map Card.rank)
    (hr5 : "5" ∈ (hole ++ community).map Card.rank)
    (hrf : HandEvaluator.check_royal_flush (hole ++ community) = none)
    (hsf : HandEvaluator.check_straight_flush (hole ++ community) = none)
    (h4k : HandEvaluator.check_four_of_a_kind (hole ++ community) = none)
    (hfh : HandEvaluator.check_full_house (hole ++ community) = none)
    (hfl : HandEvaluator.check_flush (hole ++ community) = none)
    (hns : straightWindow (sortedDistinctValuesDesc (hole ++ community)) = none) :
    (HandEvaluator.evaluate_hand hole community).type = "straight" := by
  have hval : ∀ (r : String) (v : Nat), r ∈ (hole ++ community).map Card.rank →
      (∀ c : Card, c.rank = r → c.value = v) → v ∈ (hole ++ community).map Card.value := by
    intro r v hr hv
    rcases List.mem_map.mp hr with ⟨c, hc, hce⟩
    exact List.mem_map.mpr ⟨c, hc, hv c hce⟩
  have hA : 14 ∈ (hole ++ community).map Card.value :=
    hval "A" 14 hrA (fun c hc => by simp [Card.value, hc])
  have hv2 : 2 ∈ (hole ++ community).map Card.value :=
    hval "2" 2 hr2 (fun c hc => by simp [Card.value, hc])
  have hv3 : 3 ∈ (hole ++ community).map Card.value :=
    hval "3" 3 hr3 (fun c hc => by simp [Card.value, hc])
  have hv4 : 4 ∈ (hole ++ community).map Card.value :=
    hval "4" 4 hr4 (fun c hc => by simp [Card.value, hc])
  have hv5 : 5 ∈ (hole ++ community).map Card.value :=
    hval "5" 5 hr5 (fun c hc => by simp [Card.value, hc])
  unfold HandEvaluator.evaluate_hand
  simp only []
  rw [if_neg (by omega : ¬ (hole ++ community).length < 5)]
  rw [hrf]
  simp only []
  rw [hsf]
  simp only []
  rw [h4k]
  simp only []
  rw [hfh]
  simp only []
  rw [hfl]
  simp only []
  rw [check_straight_wheel (hole ++ community) hns hA hv2 hv3 hv4 hv5]

/-- The wheel hole cards used in the C8 witness. -/
def wheelHole : List Card := [⟨"A", "hearts"⟩, ⟨"2", "spades"⟩]

/-- The community cards of the C8 witness: 3-4-5 plus two blanks. -/
def wheelCommunity : List Card :=
  [⟨"3", "diamonds"⟩, ⟨"4", "clubs"⟩, ⟨"5", "hearts"⟩, ⟨"K", "spades"⟩, ⟨"9", "diamonds"⟩]

/-- C8 witness: A-2 against a 3-4-5-K-9 board evaluates to a straight. -/
theorem wheel_recognized_as_straight_witness :
    (HandEvaluator.evaluate_hand wheelHole wheelCommunity).type = "straight" :=
  wheel_recognized_as_straight wheelHole wheelCommunity (by decide) (by decide) (by decide)
    (by decide) (by decide) (by decide) (by decide) (by decide) (by decide) (by decide)
    (by decide) (by decide)

/-! Chip conservation before settlement (claim C1). -/

/-- The chips and hand-start snapshot of one seat. -/
def moneyData (p : Player) : Int × Int := (p.chips, p.starting_chips)

/-- Two states with the same pot and the same per-seat money. -/
def MoneyFrame (g g' : Game) : Prop :=
  g'.pot = g.pot ∧
  g'.player_manager.players.map moneyData = g.player_manager.players.map moneyData

theorem MoneyFrame.refl (g : Game) : MoneyFrame g g := ⟨rfl, rfl⟩

theorem MoneyFrame.trans {g1 g2 g3 : Game} (h12 : MoneyFrame g1 g2) (h23 : MoneyFrame g2 g3) :
    MoneyFrame g1 g3 := ⟨h23.1.trans h12.1, h23.2.trans h12.2⟩

theorem sums_of_moneyData_eq {l l' : List Player}
    (h : l'.map moneyData = l.map moneyData) :
    (l'.map (fun p => p.chips)).sum = (l.map (fun p => p.chips)).sum ∧
    (l'.map (fun p => p.starting_chips)).sum = (l.map (fun p => p.starting_chips)).sum := by
  constructor
  · have h1 := congrArg (fun m => (m.map Prod.fst).sum) h
    simpa [List.map_map, moneyData, Function.comp] using h1
  · have h2 := congrArg (fun m => (m.map Prod.snd).sum) h
    simpa [List.map_map, moneyData, Function.comp] using h2

theorem chipsConserved_of_frame {g g' : Game} (hf : MoneyFrame g g')
    (hc : chipsConserved g) : chipsConserved g' := by
  unfold chipsConserved sumChips sumStartingChips at *
  rw [(sums_of_moneyData_eq hf.2).1, (sums_of_moneyData_eq hf.2).2, hf.1]
  exact hc

theorem frame_set_initial_player (g : Game) : MoneyFrame g g.set_initial_player :=
  ⟨rfl, rfl⟩

theorem frame_reset_betting_round (g : Game) : MoneyFrame g g.reset_betting_round := by
  unfold Game.reset_betting_round
  refine ⟨rfl, ?_⟩
  show ((Game.set_initial_player _).player_manager.players).map moneyData = _
  rw [(set_initial_player_proj _).1]
  show ((g.player_manager.players.map _).map moneyData) = _
  rw [List.map_map]
  rfl

theorem frame_check_single_player (g : Game) :
    MoneyFrame g (g.check_single_player_and_wait).2 := by
  unfold Game.check_single_player_and_wait
  repeat' split
  all_goals exact ⟨rfl, rfl⟩

theorem single_player_gate_proj (g : Game) :
    (g.single_player_gate).2.player_manager.players = g.player_manager.players ∧
    (g.single_player_gate).2.pot = g.pot ∧
    (g.single_player_gate).2.stage = g.stage := by
  unfold Game.single_player_gate Game.check_single_player_and_wait
  simp only []
  repeat' split
  all_goals exact ⟨rfl, rfl, rfl⟩

theorem should_advance_proj (g : Game) :
    (g.should_advance_stage).2.player_manager.players = g.player_manager.players ∧
    (g.should_advance_stage).2.pot = g.pot ∧
    (g.should_advance_stage).2.stage = g.stage := by
  unfold Game.should_advance_stage
  simp only []
  have hg := single_player_gate_proj g
  repeat' split
  all_goals exact ⟨hg.1, hg.2.1, hg.2.2⟩

theorem frame_should_advance (g : Game) : MoneyFrame g (g.should_advance_stage).2 :=
  ⟨(should_advance_proj g).2.1, by rw [(should_advance_proj g).1]⟩

theorem move_dealer_button_players (pm : PlayerManager) :
    (pm.move_dealer_button).players = pm.players := by
  unfold PlayerManager.move_dealer_button
  repeat' split
  all_goals rfl

theorem frame_mark_disconnected (g : Game) (uid : String) :
    MoneyFrame g (g.mark_disconnected uid) := ⟨rfl, rfl⟩

theorem frame_spectate_if_midhand (g : Game) (uid : String) :
    MoneyFrame g (g.spectate_if_midhand uid) := by
  unfold Game.spectate_if_midhand
  repeat' split
  all_goals exact ⟨rfl, rfl⟩

theorem frame_auto_fold_disconnected (g : Game) (uid : String) :
    MoneyFrame g (g.auto_fold_disconnected uid) := by
  unfold Game.auto_fold_disconnected
  simp only []
  split
  · split
    · exact ⟨rfl, rfl⟩
    · split
      · next player heq =>
        split
        · refine ⟨rfl, ?_⟩
          unfold Game.writeBackByUserId Game.setPlayers
          simp only []
          have hfind : g.player_manager.players.find? (fun q => q.user_id == uid) = some player := heq
          obtain ⟨l1, l2, hsplit, hupd⟩ := updateFirst_decomp
            (fun q => q.user_id == uid) (fun _ => player.fold) _ player hfind
          rw [hupd, hsplit]
          simp [moneyData, Player.fold]
        · exact ⟨rfl, rfl⟩
      · exact ⟨rfl, rfl⟩
  · exact ⟨rfl, rfl⟩

theorem frame_set_player_disconnected (g : Game) (uid : String) :
    MoneyFrame g (g.set_player_disconnected uid) :=
  MoneyFrame.trans (frame_mark_disconnected g uid)
    (MoneyFrame.trans (frame_spectate_if_midhand _ uid) (frame_auto_fold_disconnected _ uid))

theorem frame_move_loop : ∀ (fuel : Nat) (g : Game) (cur : Int),
    MoneyFrame g (Game.move_loop fuel g cur) := by
  intro fuel
  induction fuel with
  | zero => intro g cur; exact ⟨rfl, rfl⟩
  | succ n ih =>
    intro g cur
    unfold Game.move_loop
    split
    · exact ⟨rfl, rfl⟩
    · split
      · exact ⟨rfl, rfl⟩
      · split
        · exact MoneyFrame.trans (frame_set_player_disconnected g _)
            (MoneyFrame.trans ⟨rfl, rfl⟩ (ih _ _))
        · exact MoneyFrame.trans (⟨rfl, rfl⟩ : MoneyFrame g _) (ih _ _)

theorem frame_single_player_gate (g : Game) : MoneyFrame g (g.single_player_gate).2 :=
  ⟨(single_player_gate_proj g).2.1, by rw [(single_player_gate_proj g).1]⟩

theorem frame_move_to_next_player (g : Game) : MoneyFrame g g.move_to_next_player := by
  unfold Game.move_to_next_player
  simp only []
  split
  · exact frame_single_player_gate g
  · split
    · exact frame_single_player_gate g
    · exact MoneyFrame.trans (frame_single_player_gate g) (frame_move_loop _ _ _)

theorem frame_build_side_pots (g : Game) : MoneyFrame g (g.build_side_pots).2 := by
  unfold Game.build_side_pots
  simp only []
  repeat' split
  all_goals exact ⟨rfl, rfl⟩

theorem frame_update_side_pots (g : Game) : MoneyFrame g g.update_side_pots_snapshot :=
  frame_build_side_pots g

theorem check_instant_win_disj (g : Game) :
    g.check_instant_win = g ∨ (g.check_instant_win).stage = GameStage.ended := by
  unfold Game.check_instant_win
  cases g.player_manager.get_active_players with
  | nil => exact Or.inl rfl
  | cons a t =>
    cases t with
    | nil => exact Or.inr rfl
    | cons b t2 => exact Or.inl rfl

theorem determine_winner_stage (g : Game) :
    ((g.determine_winner).2).stage = GameStage.ended := by
  unfold Game.determine_winner
  simp only []
  repeat' split
  all_goals rfl

theorem frame_run_out_to_river (g : Game) : MoneyFrame g g.run_out_to_river := by
  unfold Game.run_out_to_river
  repeat' split
  all_goals exact ⟨rfl, rfl⟩

theorem next_stage_cases (g : Game) :
    ((g.next_stage).2).stage = GameStage.ended ∨ MoneyFrame g (g.next_stage).2 := by
  unfold Game.next_stage
  simp only []
  cases hst : g.stage
  case river => exact Or.inl (determine_winner_stage _)
  case showdown => exact Or.inl rfl
  case ended =>
    simp only []
    split
    · exact Or.inl hst
    · exact Or.inr (frame_reset_betting_round g)
  all_goals
    simp only []
    split
    · exact Or.inl (determine_winner_stage _)
    · exact Or.inr (MoneyFrame.trans (⟨rfl, rfl⟩ : MoneyFrame g _) (frame_reset_betting_round _))

theorem conserved_writeback (g : Game) (q : Player → Bool) (p p1 : Player) (d : Int)
    (hp : g.player_manager.players.find? q = some p)
    (hchips : p1.chips = p.chips - d)
    (hstart : p1.starting_chips = p.starting_chips)
    (hcons : chipsConserved g) :
    chipsConserved { g.setPlayers (updateFirst q (fun _ => p1) g.player_manager.players)
                     with pot := g.pot + d } := by
  obtain ⟨l1, l2, hsplit, hupd⟩ := updateFirst_decomp q (fun _ => p1) _ p hp
  unfold chipsConserved sumChips sumStartingChips at hcons ⊢
  unfold Game.setPlayers
  simp only [] at hcons ⊢
  rw [hupd]
  rw [hsplit] at hcons
  simp only [List.map_append, List.sum_append, List.map_cons, List.sum_cons] at hcons ⊢
  omega

theorem bet_money_of_afford (p : Player) (a : Int) (h : p.can_afford a = true) :
    (p.bet a).chips = p.chips - a ∧ (p.bet a).starting_chips = p.starting_chips := by
  have hna : ¬ a > p.chips := by
    unfold Player.can_afford at h
    simp at h
    omega
  constructor
  · show p.chips - (if a > p.chips then p.chips else a) = p.chips - a
    rw [if_neg hna]
  · rfl

theorem deal_hole_cards_money : ∀ (deck : List Card) (ps : List Player),
    ((Game.deal_hole_cards deck ps).1).map moneyData = ps.map moneyData := by
  intro deck ps
  induction ps generalizing deck with
  | nil => rfl
  | cons p t ih =>
    unfold Game.deal_hole_cards
    simp only []
    split
    · simp only [List.map_cons]
      rw [ih]
      rfl
    · simp only [List.map_cons]
      rw [ih]

theorem frame_deal_cards (g : Game) : MoneyFrame g g.deal_cards := by
  unfold Game.deal_cards Game.setPlayers
  refine ⟨rfl, ?_⟩
  simp only []
  exact deal_hole_cards_money g.deck g.player_manager.players

theorem process_action_conserved_or_ended (g : Game) (p : Player) (act : String) (amt : Int)
    (hp : g.player_manager.players.find? (fun q => q.user_id == p.user_id) = some p)
    (hcons : chipsConserved g) :
    chipsConserved (g.process_action p act amt).2 ∨
    ((g.process_action p act amt).2).stage = GameStage.ended := by
  have hframe_wb : ∀ p1 : Player, moneyData p1 = moneyData p →
      MoneyFrame g (g.writeBackByUserId p.user_id p1) := by
    intro p1 hmd
    refine ⟨rfl, ?_⟩
    unfold Game.writeBackByUserId Game.setPlayers
    simp only []
    obtain ⟨l1, l2, hsplit, hupd⟩ := updateFirst_decomp _ (fun _ => p1) _ p hp
    rw [hupd, hsplit]
    simp [hmd]
  have hciw : ∀ gx : Game, chipsConserved gx →
      chipsConserved gx.check_instant_win ∨ (gx.check_instant_win).stage = GameStage.ended := by
    intro gx hc
    rcases check_instant_win_disj gx with he | hend
    · exact Or.inl (by rw [he]; exact hc)
    · exact Or.inr hend
  unfold Game.process_action
  simp only []
  split
  · -- fold
    simp only []
    have hgw := chipsConserved_of_frame (hframe_wb p.fold rfl) hcons
    split
    · next hE => exact Or.inr (by simpa using hE)
    · next hE =>
      rcases hciw _ hgw with hcw | hend
      · exact Or.inl hcw
      · exact absurd (by simp [hend]) hE
  · split
    · -- check
      split
      · exact Or.inl hcons
      · simp only []
        have hg1 := chipsConserved_of_frame (hframe_wb p.check rfl) hcons
        split
        · exact hciw _ (chipsConserved_of_frame (⟨rfl, rfl⟩ : MoneyFrame _ _) hg1)
        · exact hciw _ hg1
    · split
      · -- call
        split
        · exact Or.inl hcons
        · split
          · -- all-in call
            next haff =>
            have hbet := bet_money_of_afford p p.chips (by unfold Player.can_afford; simp)
            have hcw := conserved_writeback g _ p (p.bet p.chips) p.chips hp hbet.1 hbet.2 hcons
            exact hciw _ (chipsConserved_of_frame (⟨rfl, rfl⟩ : MoneyFrame _ _) hcw)
          · -- normal call
            next haff =>
            have haff' : p.can_afford (g.current_bet - p.current_bet) = true := by
              simpa using haff
            have hbet := bet_money_of_afford ({ p with last_action := "call" } : Player)
              (g.current_bet - p.current_bet) haff'
            have hcw := conserved_writeback g _ p (p.call g.current_bet)
              (g.current_bet - p.current_bet) hp hbet.1 hbet.2 hcons
            simp only []
            split
            · exact hciw _ (chipsConserved_of_frame
                (MoneyFrame.trans (⟨rfl, rfl⟩ : MoneyFrame _ _) (frame_update_side_pots _)) hcw)
            · exact hciw _ (chipsConserved_of_frame (frame_update_side_pots _) hcw)
      · split
        · -- raise
          split
          · exact Or.inl hcons
          · split
            · exact Or.inl hcons
            · next haff2 =>
              split
              · exact Or.inl hcons
              · have haff2' : p.can_afford (amt - p.current_bet) = true := by
                  simpa using haff2
                have hbet := bet_money_of_afford ({ p with last_action := "raise" } : Player)
                  (amt - p.current_bet) haff2'
                have hcw := conserved_writeback g _ p (p.raise_bet (amt - p.current_bet))
                  (amt - p.current_bet) hp hbet.1 hbet.2 hcons
                have hcw2 : chipsConserved
                    { g.writeBackByUserId p.user_id (p.raise_bet (amt - p.current_bet)) with
                      pot := (g.writeBackByUserId p.user_id (p.raise_bet (amt - p.current_bet))).pot
                        + (amt - p.current_bet),
                      current_bet := amt } :=
                  chipsConserved_of_frame (⟨rfl, rfl⟩ : MoneyFrame _ _) hcw
                split
                · exact hciw _ (chipsConserved_of_frame
                    (MoneyFrame.trans (⟨rfl, rfl⟩ : MoneyFrame _ _) (frame_update_side_pots _)) hcw2)
                · exact hciw _ (chipsConserved_of_frame
                    (MoneyFrame.trans (⟨rfl, rfl⟩ : MoneyFrame _ _) (frame_update_side_pots _)) hcw2)
        · exact Or.inl hcons

theorem player_action_conserves (g : Game) (uid act : String) (amt : Int)
    (hcons : chipsConserved g)
    (hne : ((g.player_action uid act amt).2).stage ≠ GameStage.ended) :
    chipsConserved (g.player_action uid act amt).2 := by
  revert hne
  unfold Game.player_action
  simp only []
  split
  · intro _; exact hcons
  · next player heq =>
    have heq' : g.player_manager.players.find? (fun q => q.user_id == uid) = some player := heq
    have hbeq := List.find?_some heq'
    have huid : player.user_id = uid := eq_of_beq hbeq
    have hp : g.player_manager.players.find? (fun q => q.user_id == player.user_id)
        = some player := by
      rw [huid]; exact heq'
    have hdis := process_action_conserved_or_ended g player act amt hp hcons
    split
    · intro _; exact hcons
    · split
      · intro _; exact hcons
      · split
        · split
          · next hE =>
            intro hne
            exact absurd (by simpa using hE) hne
          · next hE =>
            have hc2 : chipsConserved (g.process_action player act amt).2 := by
              rcases hdis with hc | hend
              · exact hc
              · exact absurd (by simp [hend]) hE
            have hc3 : chipsConserved
                ((g.process_action player act amt).2.should_advance_stage).2 :=
              chipsConserved_of_frame (frame_should_advance _) hc2
            split
            · intro _; exact hc3
            · split
              · intro hne
                rcases next_stage_cases
                    ((g.process_action player act amt).2.should_advance_stage).2 with hend | hfr
                · exact absurd hend hne
                · exact chipsConserved_of_frame hfr hc3
              · intro _
                exact chipsConserved_of_frame (frame_move_to_next_player _) hc3
        · intro hne
          rcases hdis with hc | hend
          · exact hc
          · exact absurd hend hne

theorem conserved_post_small_blind (g : Game) (sbp : Option Int)
    (hc : chipsConserved g) : chipsConserved (g.post_small_blind sbp) := by
  unfold Game.post_small_blind
  split
  · split
    · split
      · next pl hg =>
        simp only []
        split
        · next hca =>
          exact conserved_writeback g _ pl _ _ hg
            (bet_money_of_afford pl _ hca).1 (bet_money_of_afford pl _ hca).2 hc
        · split
          · have hca : pl.can_afford pl.chips = true := by
              unfold Player.can_afford
              simp
            exact conserved_writeback g _ pl _ _ hg
              (bet_money_of_afford pl _ hca).1 (bet_money_of_afford pl _ hca).2 hc
          · exact hc
      · exact hc
    · exact hc
  · exact hc

theorem conserved_post_big_blind (g : Game) (bbp : Option Int)
    (hc : chipsConserved g) : chipsConserved (g.post_big_blind bbp) := by
  unfold Game.post_big_blind
  split
  · split
    · split
      · next pl hg =>
        simp only []
        split
        · next hca =>
          exact chipsConserved_of_frame (⟨rfl, rfl⟩ : MoneyFrame _ _)
            (conserved_writeback g _ pl _ _ hg
              (bet_money_of_afford pl _ hca).1 (bet_money_of_afford pl _ hca).2 hc)
        · split
          · have hca : pl.can_afford pl.chips = true := by
              unfold Player.can_afford
              simp
            have hcw := conserved_writeback g _ pl
              ({ pl.bet pl.chips with last_action := "bb" } : Player) pl.chips hg
              (bet_money_of_afford pl _ hca).1 (bet_money_of_afford pl _ hca).2 hc
            split
            · exact chipsConserved_of_frame (⟨rfl, rfl⟩ : MoneyFrame _ _) hcw
            · exact chipsConserved_of_frame (⟨rfl, rfl⟩ : MoneyFrame _ _) hcw
          · exact hc
      · exact hc
    · exact hc
  · exact hc

theorem conserved_post_blinds (g : Game) (hc : chipsConserved g) :
    chipsConserved g.post_blinds := by
  unfold Game.post_blinds
  exact conserved_post_big_blind _ _ (conserved_post_small_blind g _ hc)

theorem conserved_of_reset_players (gx : Game) (hpot : gx.pot = 0)
    (hps : ∃ l : List Player, gx.player_manager.players = l.map Player.reset_game) :
    chipsConserved gx := by
  obtain ⟨l, hl⟩ := hps
  unfold chipsConserved sumChips sumStartingChips
  rw [hl]
  simp only [List.map_map, hpot, add_zero]
  exact sum_map_congr_mem _ _ _ (fun p _ => rfl)

theorem start_game_conserves (g : Game) (d : List Card) (pick : Nat)
    (hs : (g.start_game d pick).1 = true) :
    chipsConserved (g.start_game d pick).2 := by
  revert hs
  unfold Game.start_game
  simp only []
  split
  · intro hs
    simp at hs
  · split
    · intro hs
      simp at hs
    · split
      · intro hs
        simp at hs
      · intro _
        refine chipsConserved_of_frame (frame_set_initial_player _) ?_
        refine conserved_post_blinds _ ?_
        refine chipsConserved_of_frame (frame_deal_cards _) ?_
        refine conserved_of_reset_players _ rfl ⟨g.player_manager.players, ?_⟩
        simp only []
        rw [move_dealer_button_players]
        split
        · rfl
        · rfl

/-- C1 (amended): chip conservation — the seated players' chips plus the
pot equal the hand-start chip total — holds after every successful
start_game, and is preserved by every player_action whose resulting stage
is not ENDED. It does not survive settlement: the pot is paid into the
winners' chips but never cleared, see the counterexample theorem. -/
theorem chip_conservation_before_settlement :
    (∀ (g : Game) (d : List Card) (pick : Nat),
        (g.start_game d pick).1 = true → chipsConserved (g.start_game d pick).2) ∧
    (∀ (g : Game) (uid act : String) (amt : Int),
        chipsConserved g →
        ((g.player_action uid act amt).2).stage ≠ GameStage.ended →
        chipsConserved (g.player_action uid act amt).2) :=
  ⟨fun g d pick hs => start_game_conserves g d pick hs,
   fun g uid act amt hc hne => player_action_conserves g uid act amt hc hne⟩

theorem chip_conservation_before_settlement_witness :
    chipsConserved (headsUpTable.start_game standardDeck 0).2 ∧
    chipsConserved (headsUpDealt.player_action "u2" "call" 0).2 :=
  ⟨chip_conservation_before_settlement.1 headsUpTable standardDeck 0 (by decide),
   chip_conservation_before_settlement.2 headsUpDealt "u2" "call" 0 (by decide) (by decide)⟩

end GameLogic
